import Mathlib

/-!
Verification of the StreamlitDerivativeSignals dashboard core: the
Perplexity API client (`src/services/perplexity_service.py`,
`src/models/api_models.py`) and the persistent audit store
(`src/services/data_service.py`).

The Python code is shallowly embedded as pure Lean functions:
* JSON values are the inductive type `Json`; JSON numbers are unnormalised
  decimals `JNum` (mantissa and power-of-ten exponent), which is how every
  numeric literal this program reads or writes is represented on the wire.
* The dict-shaped rows the store keeps in its JSON collection files are
  modelled by typed records mirroring the dataclasses of
  `src/models/api_models.py`; `datetime` instants are modelled as integers
  on an abstract linear timeline (seconds), ISO-8601 formatting being a
  bijection between instants and their stored strings.
* Each store method is a pure function from the loaded collection (plus the
  data Python obtains from its environment: the current instant, the fresh
  uuid) to the collection it writes back; Python's in-place mutate-first-
  match-then-break loops become `updateFirst`.
* `float` tuning fields never undergo arithmetic in the code paths under
  study (they are only constructed, compared and serialized), so they are
  modelled as decimals `JNum`; the statistics ratios, where a division does
  occur, are modelled as exact rationals.
-/

/-- A JSON number as an unnormalised decimal: `m / 10 ^ e`.
`JNum.mk 7 1` is the literal `0.7`, `JNum.mk 1000 0` the literal `1000`. -/
structure JNum where
  m : Int
  e : Nat
deriving DecidableEq, Repr

/-- JSON values, as produced by `json.load` / consumed by `json.dump`. -/
inductive Json where
  | null : Json
  | bool (b : Bool) : Json
  | num (n : JNum) : Json
  | str (s : String) : Json
  | arr (xs : List Json) : Json
  | obj (fields : List (String × Json)) : Json

/-- A JSON integer literal. -/
def Json.int (n : Int) : Json := .num ⟨n, 0⟩

/-- Python truthiness of a JSON value (`if value:`): `None`, `False`, `0`,
`""`, `[]` and `{}` are falsy, everything else truthy. -/
def jsonTruthy : Json → Bool
  | .null => false
  | .bool b => b
  | .num n => n.m != 0
  | .str s => !s.isEmpty
  | .arr xs => !xs.isEmpty
  | .obj fs => !fs.isEmpty

/-- `dict.get(key, default)` on a JSON object's field list (first match). -/
def jsonGetD (fields : List (String × Json)) (key : String) (d : Json) : Json :=
  match fields.lookup key with
  | some v => v
  | none => d

/-- `key in dict` on a JSON object's field list. -/
def jsonHasKey (fields : List (String × Json)) (key : String) : Bool :=
  (fields.lookup key).isSome

/-! ## src/models/api_models.py -/

/-- `PerplexityMessage` (api_models.py): a chat message. -/
structure PerplexityMessage where
  role : String
  content : String
deriving DecidableEq, Repr

/-- `PerplexityRequest` (api_models.py): the outbound request dataclass.
Optional fields default to `None`. -/
structure PerplexityRequest where
  model : String
  messages : List PerplexityMessage
  max_tokens : Option Int := none
  temperature : Option JNum := none
  top_p : Option JNum := none
  presence_penalty : Option JNum := none
  frequency_penalty : Option JNum := none
  stream : Option Bool := none
  return_citations : Option Bool := none
  return_related_questions : Option Bool := none
  return_images : Option Bool := none
deriving DecidableEq, Repr

/-- `asdict` of a `PerplexityMessage`: the `{role, content}` JSON object. -/
def PerplexityMessage.toJson (msg : PerplexityMessage) : Json :=
  .obj [("role", .str msg.role), ("content", .str msg.content)]

/-- One optional entry of the wire payload: present with its serialized
value when the field is set, absent when the field is `None`.  This is the
`if value is not None` filter of `PerplexityRequest.to_dict`. -/
def optEntry (key : String) : Option Json → List (String × Json)
  | some v => [(key, v)]
  | none => []

/-- `PerplexityRequest.to_dict` (api_models.py): iterates the dataclass
fields in declaration order, keeping exactly the non-`None` ones, with
`messages` serialized as the ordered list of `{role, content}` objects. -/
def PerplexityRequest.to_dict (r : PerplexityRequest) : List (String × Json) :=
  [("model", .str r.model),
   ("messages", .arr (r.messages.map PerplexityMessage.toJson))]
  ++ optEntry "max_tokens" (r.max_tokens.map Json.int)
  ++ optEntry "temperature" (r.temperature.map Json.num)
  ++ optEntry "top_p" (r.top_p.map Json.num)
  ++ optEntry "presence_penalty" (r.presence_penalty.map Json.num)
  ++ optEntry "frequency_penalty" (r.frequency_penalty.map Json.num)
  ++ optEntry "stream" (r.stream.map Json.bool)
  ++ optEntry "return_citations" (r.return_citations.map Json.bool)
  ++ optEntry "return_related_questions" (r.return_related_questions.map Json.bool)
  ++ optEntry "return_images" (r.return_images.map Json.bool)

/-- `PerplexityUsage` (api_models.py). -/
structure PerplexityUsage where
  prompt_tokens : Int
  completion_tokens : Int
  total_tokens : Int
deriving DecidableEq, Repr

/-- `PerplexityChoice` (api_models.py). -/
structure PerplexityChoice where
  index : Int
  finish_reason : String
  message : PerplexityMessage
deriving DecidableEq, Repr

/-- `PerplexitySearchResult` (api_models.py). -/
structure PerplexitySearchResult where
  title : String
  url : String
  snippet : String
deriving DecidableEq, Repr

/-- `PerplexityResponse` (api_models.py): the parsed inbound response. -/
structure PerplexityResponse where
  id : String
  object : String
  created : Int
  model : String
  choices : List PerplexityChoice
  usage : PerplexityUsage
  search_results : Option (List PerplexitySearchResult) := none
  related_questions : Option (List String) := none
  citations : Option (List String) := none
deriving DecidableEq, Repr

/-- `ApiRequestLog` (api_models.py): one row of the request-log collection.
The store reads and writes these rows as JSON dicts; the typed record and
the dict correspond field for field (`to_dict` / `from_dict`), so the
collection is modelled as a list of records.  `timestamp` is an instant on
the abstract integer timeline. -/
structure ApiRequestLog where
  id : String
  timestamp : Int
  model : String
  prompt : String
  request_json : String
  response_json : Option String := none
  response_id : Option String := none
  response_content : Option String := none
  prompt_tokens : Option Int := none
  completion_tokens : Option Int := none
  total_tokens : Option Int := none
  status : String := "pending"
  error_message : Option String := none
  duration_ms : Option Int := none
  search_results : List PerplexitySearchResult := []
deriving DecidableEq, Repr

/-- A saved-prompt row (data_service.py builds these as dicts in
`save_prompt` and `_get_default_prompts`). -/
structure SavedPrompt where
  id : String
  name : String
  description : String
  content : String
  category : String
  created_at : Int
  last_used : Option Int := none
  usage_count : Nat := 0
deriving DecidableEq, Repr

/-! ## src/services/data_service.py -/

/-- Python's mutate-the-first-match-then-`break` loop over a list: applies
`f` to the first element satisfying `p`, leaves everything else unchanged. -/
def updateFirst (p : α → Bool) (f : α → α) : List α → List α
  | [] => []
  | x :: xs => if p x then f x :: xs else x :: updateFirst p f xs

namespace DataService

/-- `DataService.log_request`: appends a fresh row in status `"sent"` with
the current instant and returns the generated id.  `rid` is the
`uuid.uuid4()` value and `now` the `datetime.now()` instant Python draws
from its environment. -/
def log_request (requests : List ApiRequestLog) (rid : String) (now : Int)
    (request : PerplexityRequest) (request_json : String) :
    List ApiRequestLog × String :=
  let log_entry : ApiRequestLog :=
    { id := rid
      timestamp := now
      model := request.model
      prompt := match request.messages with
                | m :: _ => m.content
                | [] => ""
      request_json := request_json
      status := "sent" }
  (requests ++ [log_entry], rid)

/-- The row mutation of `DataService.update_response`: fills the response
fields and sets status to `"completed"`; the `search_results` key is
written only when `response.search_results` is truthy (a non-empty list),
otherwise the row keeps its previous value for it. -/
def completeRow (response : PerplexityResponse) (response_json : String)
    (duration_ms : Int) (r : ApiRequestLog) : ApiRequestLog :=
  { r with
    response_json := some response_json
    response_id := some response.id
    response_content := some (match response.choices with
                              | c :: _ => c.message.content
                              | [] => "")
    prompt_tokens := some response.usage.prompt_tokens
    completion_tokens := some response.usage.completion_tokens
    total_tokens := some response.usage.total_tokens
    status := "completed"
    duration_ms := some duration_ms
    search_results := match response.search_results with
                      | some (sr :: srs) => sr :: srs
                      | _ => r.search_results }

/-- `DataService.update_response`: applies `completeRow` to the first row
matching the id.  No match: the collection is written back unchanged. -/
def update_response (requests : List ApiRequestLog) (request_id : String)
    (response : PerplexityResponse) (response_json : String)
    (duration_ms : Int) : List ApiRequestLog :=
  updateFirst (fun r => r.id == request_id)
    (completeRow response response_json duration_ms) requests

/-- The row mutation of `DataService.update_error`: sets status to
`"error"` and fills the error message and duration. -/
def errorRow (error_message : String) (duration_ms : Int)
    (r : ApiRequestLog) : ApiRequestLog :=
  { r with
    status := "error"
    error_message := some error_message
    duration_ms := some duration_ms }

/-- `DataService.update_error`: applies `errorRow` to the first row
matching the id.  No match: the collection is written back unchanged. -/
def update_error (requests : List ApiRequestLog) (request_id : String)
    (error_message : String) (duration_ms : Int) : List ApiRequestLog :=
  updateFirst (fun r => r.id == request_id)
    (errorRow error_message duration_ms) requests

/-- `DataService.get_request_by_id`: linear scan, first row with the id. -/
def get_request_by_id (requests : List ApiRequestLog) (request_id : String) :
    Option ApiRequestLog :=
  requests.find? (fun r => r.id == request_id)

/-- Python truthiness of `r.get('total_tokens')` on a row: the key holds
`None` until the row completes, and `0` is falsy. -/
def tokensTruthy : Option Int → Bool
  | some n => n != 0
  | none => false

/-- The `model_usage.get(model, 0) + 1` dict update of
`get_usage_statistics`: bumps the count at the key in place, appending a
new key at the end (Python dict insertion order). -/
def bumpCount (model : String) : List (String × Nat) → List (String × Nat)
  | [] => [(model, 1)]
  | (k, n) :: rest =>
      if k == model then (k, n + 1) :: rest else (k, n) :: bumpCount model rest

/-- The length of 7 days on the integer timeline (seconds), the
`timedelta(days=7)` of `get_usage_statistics`. -/
def sevenDays : Int := 7 * 86400

/-- The record returned by `DataService.get_usage_statistics`.  The two
ratios are Python floats from exact divisions of small integers; they are
modelled as exact rationals. -/
structure UsageStatistics where
  total_requests : Nat
  completed_requests : Nat
  total_tokens : Int
  success_rate : ℚ
  model_usage : List (String × Nat)
  recent_requests : Nat
  avg_tokens_per_request : ℚ
deriving DecidableEq, Repr

/-- `DataService.get_usage_statistics`: pure recomputation over the loaded
request-log collection; `now` is `datetime.now()`. -/
def get_usage_statistics (requests : List ApiRequestLog) (now : Int) :
    UsageStatistics :=
  let total_requests := requests.length
  let completed_requests :=
    (requests.filter (fun r => r.status == "completed")).length
  let total_tokens :=
    ((requests.filter (fun r => tokensTruthy r.total_tokens)).map
      (fun r => r.total_tokens.getD 0)).sum
  let success_rate : ℚ :=
    if total_requests > 0 then
      (completed_requests : ℚ) / (total_requests : ℚ) * 100
    else 0
  let model_usage :=
    List.foldl (fun acc r => bumpCount r.model acc) [] requests
  let recent_date := now - sevenDays
  let recent_requests :=
    requests.filter (fun r => recent_date ≤ r.timestamp)
  { total_requests := total_requests
    completed_requests := completed_requests
    total_tokens := total_tokens
    success_rate := success_rate
    model_usage := model_usage
    recent_requests := recent_requests.length
    avg_tokens_per_request :=
      if completed_requests > 0 then
        (total_tokens : ℚ) / (completed_requests : ℚ)
      else 0 }

/-- `DataService.save_prompt`: appends a fresh prompt row with
`usage_count = 0` and `last_used` absent, returning the generated id.
`pid` is the `uuid.uuid4()` value and `now` the `datetime.now()` instant. -/
def save_prompt (prompts : List SavedPrompt) (pid : String) (now : Int)
    (name : String) (content : String) (description : String := "")
    (category : String := "Custom") : List SavedPrompt × String :=
  let new_prompt : SavedPrompt :=
    { id := pid
      name := name
      description := description
      content := content
      category := category
      created_at := now
      last_used := none
      usage_count := 0 }
  (prompts ++ [new_prompt], pid)

/-- The row mutation of `DataService.update_prompt_usage`: sets
`last_used` to the current instant and increments `usage_count`. -/
def usedRow (now : Int) (p : SavedPrompt) : SavedPrompt :=
  { p with last_used := some now, usage_count := p.usage_count + 1 }

/-- `DataService.update_prompt_usage`: applies `usedRow` to the first
prompt matching the id.  No match: the collection is written back
unchanged. -/
def update_prompt_usage (prompts : List SavedPrompt) (prompt_id : String)
    (now : Int) : List SavedPrompt :=
  updateFirst (fun p => p.id == prompt_id) (usedRow now) prompts

/-- `DataService.delete_prompt`: keeps every prompt whose id differs. -/
def delete_prompt (prompts : List SavedPrompt) (prompt_id : String) :
    List SavedPrompt :=
  prompts.filter (fun p => p.id != prompt_id)

end DataService

/-! ## src/services/perplexity_service.py

`_parse_response` works on the dynamically-typed dict `response.json()`
returned; exceptions raised while it walks the payload (attribute errors
from calling `.get` on a non-dict, type errors from iterating a non-list)
are re-raised and surface as a parse failure, modelled as `Except.error`.
Accessors note where the dynamic code would instead store an ill-shaped
present value verbatim into an annotated-but-unchecked dataclass field;
such payloads are outside this typed model. -/

/-- `.get(...)` called on this value: succeeds only on a dict. -/
def asObjE : Json → Except String (List (String × Json))
  | .obj fs => .ok fs
  | _ => .error "AttributeError: .get on a non-dict"

/-- `for ... in` over this value: succeeds on a list.  (The dynamic source
would also iterate a string character by character; no payload considered
here puts a string where a list belongs.) -/
def asArrE : Json → Except String (List Json)
  | .arr xs => .ok xs
  | _ => .error "TypeError: iteration over a non-list"

/-- A payload value read into an `int`-annotated field.  The dynamic
source stores whatever value is present without checking; payloads with a
non-integer at an integer field are outside this typed model. -/
def asIntE : Json → Except String Int
  | .num ⟨m, 0⟩ => .ok m
  | _ => .error "non-integer value"

/-- A payload value read into a `str`-annotated field.  The dynamic source
stores whatever value is present without checking; payloads with a
non-string at a string field are outside this typed model. -/
def asStrE : Json → Except String String
  | .str s => .ok s
  | _ => .error "non-string value"

/-- A payload value read into an `Optional[List[str]]`-annotated field
(`related_questions`, `citations`): an absent key or JSON `null` is
`None`, a list of strings is kept.  The dynamic source stores any other
present value verbatim; such payloads are outside this typed model. -/
def asStrListOptE : Option Json → Except String (Option (List String))
  | none => .ok none
  | some .null => .ok none
  | some (.arr xs) => do
      let ss ← xs.mapM asStrE
      .ok (some ss)
  | some _ => .error "non-list value"

namespace PerplexityService

/-- One iteration of the `choices` loop of `_parse_response`: each element
must answer `.get`, every field defaulted when missing. -/
def parseChoice (choice_data : Json) : Except String PerplexityChoice := do
  let cObj ← asObjE choice_data
  let mObj ← asObjE (jsonGetD cObj "message" (.obj []))
  let role ← asStrE (jsonGetD mObj "role" (.str ""))
  let content ← asStrE (jsonGetD mObj "content" (.str ""))
  let index ← asIntE (jsonGetD cObj "index" (Json.int 0))
  let finish_reason ← asStrE (jsonGetD cObj "finish_reason" (.str ""))
  .ok { index := index, finish_reason := finish_reason,
        message := { role := role, content := content } }

/-- One iteration of the `search_results` loop of `_parse_response`. -/
def parseSearchResult (sr_data : Json) : Except String PerplexitySearchResult := do
  let srObj ← asObjE sr_data
  let title ← asStrE (jsonGetD srObj "title" (.str ""))
  let url ← asStrE (jsonGetD srObj "url" (.str ""))
  let snippet ← asStrE (jsonGetD srObj "snippet" (.str ""))
  .ok { title := title, url := url, snippet := snippet }

/-- The `search_results` block of `_parse_response`: the list is collected
only when the key is present and truthy, otherwise it stays empty. -/
def parseSearchResultsField (root : List (String × Json)) :
    Except String (List PerplexitySearchResult) :=
  if jsonHasKey root "search_results"
      && jsonTruthy (jsonGetD root "search_results" .null) then do
    let srJ ← asArrE (jsonGetD root "search_results" .null)
    srJ.mapM parseSearchResult
  else .ok []

/-- `PerplexityService._parse_response`: every lookup is a `.get` with a
default, so a missing key never fails; `search_results` is parsed only
when the key is present and truthy, and an empty collected list is stored
as `None` (`search_results if search_results else None`). -/
def parse_response (response_data : Json) : Except String PerplexityResponse := do
  let root ← asObjE response_data
  let usageObj ← asObjE (jsonGetD root "usage" (.obj []))
  let prompt_tokens ← asIntE (jsonGetD usageObj "prompt_tokens" (Json.int 0))
  let completion_tokens ← asIntE (jsonGetD usageObj "completion_tokens" (Json.int 0))
  let total_tokens ← asIntE (jsonGetD usageObj "total_tokens" (Json.int 0))
  let choicesJ ← asArrE (jsonGetD root "choices" (.arr []))
  let choices ← choicesJ.mapM parseChoice
  let search_results ← parseSearchResultsField root
  let id ← asStrE (jsonGetD root "id" (.str ""))
  let object ← asStrE (jsonGetD root "object" (.str ""))
  let created ← asIntE (jsonGetD root "created" (Json.int 0))
  let model ← asStrE (jsonGetD root "model" (.str ""))
  let related_questions ← asStrListOptE (root.lookup "related_questions")
  let citations ← asStrListOptE (root.lookup "citations")
  .ok { id := id, object := object, created := created, model := model,
        choices := choices,
        usage := { prompt_tokens := prompt_tokens,
                   completion_tokens := completion_tokens,
                   total_tokens := total_tokens },
        search_results := if search_results.isEmpty then none
                          else some search_results,
        related_questions := related_questions,
        citations := citations }

/-- The `**kwargs` accepted by `send_chat_request`: each tuning option is
either explicitly supplied or absent.  (`stream` is not among them: the
source pins `stream=False` unconditionally — streaming is unsupported.) -/
structure ChatKwargs where
  max_tokens : Option Int := none
  temperature : Option JNum := none
  top_p : Option JNum := none
  presence_penalty : Option JNum := none
  frequency_penalty : Option JNum := none
  return_citations : Option Bool := none
  return_related_questions : Option Bool := none
  return_images : Option Bool := none
deriving DecidableEq, Repr

/-- The `PerplexityRequest` constructed by
`PerplexityService.send_chat_request`: a single user message carrying the
prompt, every tuning option taken from `kwargs` with the source's
defaults (`kwargs.get('max_tokens', 1000)` and so on), `stream=False`. -/
def build_chat_request (prompt : String) (model : String := "sonar-pro")
    (kwargs : ChatKwargs := {}) : PerplexityRequest :=
  { model := model
    messages := [{ role := "user", content := prompt }]
    max_tokens := some (kwargs.max_tokens.getD 1000)
    temperature := some (kwargs.temperature.getD ⟨7, 1⟩)
    top_p := some (kwargs.top_p.getD ⟨10, 1⟩)
    presence_penalty := some (kwargs.presence_penalty.getD ⟨0, 1⟩)
    frequency_penalty := some (kwargs.frequency_penalty.getD ⟨0, 1⟩)
    stream := some false
    return_citations := some (kwargs.return_citations.getD true)
    return_related_questions := some (kwargs.return_related_questions.getD true)
    return_images := some (kwargs.return_images.getD false) }

/-- `PerplexityService.send_chat_request` delegates the request it builds,
unchanged, to `send_request` (modelled abstractly: the network call is
outside the embedding). -/
def send_chat_request (send : PerplexityRequest → Option PerplexityResponse)
    (prompt : String) (model : String := "sonar-pro")
    (kwargs : ChatKwargs := {}) : Option PerplexityResponse :=
  send (build_chat_request prompt model kwargs)

end PerplexityService

/-! ## Concrete data used to exercise the definitions -/

namespace Samples

/-- A parsed response with one assistant choice, used to drive
`update_response` on concrete inputs. -/
def response : PerplexityResponse :=
  { id := "resp-1"
    object := "chat.completion"
    created := 100
    model := "sonar-pro"
    choices := [{ index := 0, finish_reason := "stop",
                  message := { role := "assistant", content := "hello" } }]
    usage := { prompt_tokens := 3, completion_tokens := 4, total_tokens := 7 } }

/-- A one-row request-log collection whose row sits in status `"sent"`. -/
def sentLog : List ApiRequestLog :=
  [{ id := "req-1", timestamp := 0, model := "sonar-pro", prompt := "hi",
     request_json := "rq", status := "sent" }]

/-- A request with a single user message. -/
def request : PerplexityRequest :=
  { model := "sonar-pro"
    messages := [{ role := "user", content := "hi" }] }

/-- The evaluation instant for the statistics example. -/
def now : Int := 0

/-- The synthetic request-log collection of the statistics example: three
completed rows with 30, 20 and 10 total tokens, one error row, timestamps
spanning ten days (9, 5 and 2 days ago and right now); the three rows of
the last 7 days are the error row and the 20- and 10-token rows. -/
def statsRequests : List ApiRequestLog :=
  [{ id := "a", timestamp := -777600, model := "sonar-pro", prompt := "p1",
     request_json := "r1", status := "completed", total_tokens := some 30,
     prompt_tokens := some 10, completion_tokens := some 20 },
   { id := "b", timestamp := -432000, model := "sonar-pro", prompt := "p2",
     request_json := "r2", status := "error", error_message := some "boom" },
   { id := "c", timestamp := -172800, model := "sonar-pro", prompt := "p3",
     request_json := "r3", status := "completed", total_tokens := some 20,
     prompt_tokens := some 5, completion_tokens := some 15 },
   { id := "d", timestamp := 0, model := "sonar-pro", prompt := "p4",
     request_json := "r4", status := "completed", total_tokens := some 10,
     prompt_tokens := some 4, completion_tokens := some 6 }]

/-- An HTTP-200 payload that carries `id`, `object`, `created`, `model`
and one choice but lacks the `usage` key entirely. -/
def noUsageFields : List (String × Json) :=
  [("id", .str "resp-1"),
   ("object", .str "chat.completion"),
   ("created", Json.int 5),
   ("model", .str "sonar-pro"),
   ("choices", .arr [.obj [("index", Json.int 0),
                           ("finish_reason", .str "stop"),
                           ("message", .obj [("role", .str "assistant"),
                                             ("content", .str "hi")])]])]

/-- What `_parse_response` makes of `noUsageFields`: a successfully parsed
response whose usage counts are all zero. -/
def noUsageResponse : PerplexityResponse :=
  { id := "resp-1"
    object := "chat.completion"
    created := 5
    model := "sonar-pro"
    choices := [{ index := 0, finish_reason := "stop",
                  message := { role := "assistant", content := "hi" } }]
    usage := { prompt_tokens := 0, completion_tokens := 0, total_tokens := 0 } }

end Samples

/-! ## The JSON text layer (`json.dump(..., indent=2, ensure_ascii=False)`
and `json.load` of the Python standard library, as used by
`DataService._save_json` / `DataService._load_json`)

The store writes each collection with `json.dump(data, f, indent=2,
ensure_ascii=False)` and reads it back with `json.load(f)`.  The printer
below reproduces the dump format: two-space indentation, `", "`-free
item separators (a comma, a newline and the next indent), `": "` between
key and value, `repr`-style decimal numerals, and string escapes for the
quote, the backslash and control characters only.  The reader is a
recursive-descent scanner for the JSON grammar restricted to what the
dump format uses (decimal numerals without exponents); whitespace is
skipped wherever `json.load` skips it. -/

/-- The double-quote character. -/
def qChar : Char := Char.ofNat 34

/-- The backslash character. -/
def bsChar : Char := Char.ofNat 92

/-- The opening-brace character. -/
def lbChar : Char := Char.ofNat 123

/-- The closing-brace character. -/
def rbChar : Char := Char.ofNat 125

/-- JSON whitespace (the characters `json.load` skips between tokens). -/
def isWsChar (c : Char) : Bool :=
  (c == ' ') || (c == '\n') || (c == '\t') || (c == '\r')

/-- Skips JSON whitespace. -/
def skipWs : List Char → List Char
  | [] => []
  | c :: rest => if isWsChar c then skipWs rest else c :: rest

/-- The indentation in front of a value nested `lvl` levels deep
(`indent=2`). -/
def ind (lvl : Nat) : List Char := List.replicate (2 * lvl) ' '

/-- The numeric value of a decimal digit character. -/
def digitVal (c : Char) : Nat := c.toNat - 48

/-- The value of a big-endian string of decimal digit characters. -/
def digitsVal (cs : List Char) : Nat :=
  cs.foldl (fun a c => a * 10 + digitVal c) 0

/-- The big-endian decimal digit characters of a natural number. -/
def charsOfNat (n : Nat) : List Char :=
  if n = 0 then ['0'] else ((Nat.digits 10 n).map Nat.digitChar).reverse

/-- The digits of the unsigned decimal `mag / 10 ^ e`: the digits of
`mag` with a point placed `e` digits from the right (zero-padded so the
integer part is never empty); no point when `e = 0`. -/
def printDecimal (mag : Nat) (e : Nat) : List Char :=
  if e = 0 then charsOfNat mag
  else
    let padded := List.replicate (e + 1 - (charsOfNat mag).length) '0'
      ++ charsOfNat mag
    padded.take (padded.length - e) ++ '.' :: padded.drop (padded.length - e)

/-- Prints the decimal literal a `JNum` stands for, a `-` in front of a
negative mantissa.  This is exactly the `repr` of the Python int
(`e = 0`) or float (`e > 0`) the literal denotes. -/
def printJNum (n : JNum) : List Char :=
  if n.m < 0 then '-' :: printDecimal n.m.natAbs n.e
  else printDecimal n.m.natAbs n.e

/-- Reads an unsigned decimal numeral (digits, optional point and
digits): its value digits, the number of fractional digits, the rest. -/
def parseUnsigned (body : List Char) : Option (Nat × Nat × List Char) :=
  let ip := body.span Char.isDigit
  if ip.1.isEmpty then none
  else
    match ip.2 with
    | c :: r₂ =>
      if c = '.' then
        let fp := r₂.span Char.isDigit
        if fp.1.isEmpty then none
        else some (digitsVal (ip.1 ++ fp.1), fp.1.length, fp.2)
      else some (digitsVal ip.1, 0, c :: r₂)
    | [] => some (digitsVal ip.1, 0, [])

/-- Reads a decimal numeral (optional sign, then an unsigned numeral)
into the `JNum` it literally spells. -/
def parseNumber (input : List Char) : Option (JNum × List Char) :=
  match input with
  | c :: r =>
    if c = '-' then
      (parseUnsigned r).map (fun p => (⟨-(p.1 : Int), p.2.1⟩, p.2.2))
    else
      (parseUnsigned input).map (fun p => (⟨(p.1 : Int), p.2.1⟩, p.2.2))
  | [] => none

/-- How `json.dump(..., ensure_ascii=False)` writes one character of a
string: the quote and the backslash are backslash-escaped, the five named
control characters use their short escapes, any other control character a
`\u00xx` escape, and every remaining character stands for itself. -/
def escapeChar (c : Char) : List Char :=
  if c = qChar then [bsChar, qChar]
  else if c = bsChar then [bsChar, bsChar]
  else if c = '\n' then [bsChar, 'n']
  else if c = '\t' then [bsChar, 't']
  else if c = '\r' then [bsChar, 'r']
  else if c.toNat = 8 then [bsChar, 'b']
  else if c.toNat = 12 then [bsChar, 'f']
  else if c.toNat < 32 then
    [bsChar, 'u', '0', '0', Nat.digitChar (c.toNat / 16),
     Nat.digitChar (c.toNat % 16)]
  else [c]

/-- A quoted JSON string. -/
def printQuoted (cs : List Char) : List Char :=
  qChar :: (cs.map escapeChar).flatten ++ [qChar]

/-- The character a short escape stands for. -/
def unescapeChar (c : Char) : Option Char :=
  if c = qChar then some qChar
  else if c = bsChar then some bsChar
  else if c = '/' then some '/'
  else if c = 'n' then some '\n'
  else if c = 't' then some '\t'
  else if c = 'r' then some '\r'
  else if c = 'b' then some (Char.ofNat 8)
  else if c = 'f' then some (Char.ofNat 12)
  else none

/-- The value of a hexadecimal digit character. -/
def hexVal (c : Char) : Option Nat :=
  if c.isDigit then some (c.toNat - 48)
  else if 'a' ≤ c ∧ c ≤ 'f' then some (c.toNat - 87)
  else if 'A' ≤ c ∧ c ≤ 'F' then some (c.toNat - 55)
  else none

/-- Reads the body of a quoted string (the opening quote already
consumed) up to the closing quote, undoing the escapes. -/
def parseStringBody : List Char → Option (List Char × List Char)
  | [] => none
  | c :: rest =>
    if c = qChar then some ([], rest)
    else if c = bsChar then
      match rest with
      | [] => none
      | e :: rest₂ =>
        if e = 'u' then
          match rest₂ with
          | h₁ :: h₂ :: h₃ :: h₄ :: rest₃ =>
            match hexVal h₁, hexVal h₂, hexVal h₃, hexVal h₄ with
            | some a, some b, some x, some y =>
              (parseStringBody rest₃).map
                (fun p => (Char.ofNat (((a * 16 + b) * 16 + x) * 16 + y) :: p.1, p.2))
            | _, _, _, _ => none
          | _ => none
        else
          (unescapeChar e).bind fun ch =>
            (parseStringBody rest₂).map (fun p => (ch :: p.1, p.2))
    else
      (parseStringBody rest).map (fun p => (c :: p.1, p.2))

/-- The spelling of the `null` literal. -/
def litNull : List Char := ['n', 'u', 'l', 'l']

/-- The spelling of the `true` literal. -/
def litTrue : List Char := ['t', 'r', 'u', 'e']

/-- The spelling of the `false` literal. -/
def litFalse : List Char := ['f', 'a', 'l', 's', 'e']

mutual

/-- `json.dump(v, f, indent=2, ensure_ascii=False)`: the text written for
a value nested `lvl` levels deep. -/
def printVal (lvl : Nat) (v : Json) : List Char :=
  match v with
  | .null => litNull
  | .bool true => litTrue
  | .bool false => litFalse
  | .num n => printJNum n
  | .str s => printQuoted s.data
  | .arr [] => ['[', ']']
  | .arr (x :: xs) =>
      '[' :: '\n' :: (ind (lvl + 1) ++ printItems (lvl + 1) x xs
        ++ '\n' :: ind lvl ++ [']'])
  | .obj [] => [lbChar, rbChar]
  | .obj ((k, w) :: fs) =>
      lbChar :: '\n' :: (ind (lvl + 1) ++ printMembers (lvl + 1) k w fs
        ++ '\n' :: ind lvl ++ [rbChar])
termination_by sizeOf v
decreasing_by all_goals ((try simp); (try omega))

/-- The items of a non-empty array, separated by a comma, a newline and
the indent. -/
def printItems (lvl : Nat) (x : Json) (xs : List Json) : List Char :=
  match xs with
  | [] => printVal lvl x
  | y :: ys => printVal lvl x ++ ',' :: '\n' :: ind lvl ++ printItems lvl y ys
termination_by 1 + sizeOf x + sizeOf xs
decreasing_by all_goals ((try simp); (try omega))

/-- The members of a non-empty object: quoted key, a colon and a space,
the value; separated like array items. -/
def printMembers (lvl : Nat) (k : String) (w : Json)
    (fs : List (String × Json)) : List Char :=
  match fs with
  | [] => printQuoted k.data ++ ':' :: ' ' :: printVal lvl w
  | (k₂, w₂) :: gs => printQuoted k.data ++ ':' :: ' ' :: printVal lvl w
      ++ ',' :: '\n' :: ind lvl ++ printMembers lvl k₂ w₂ gs
termination_by 1 + sizeOf w + sizeOf fs
decreasing_by all_goals ((try simp); (try omega))

end

mutual

/-- The fuel a recursive-descent read of a value needs: one unit per
grammar step. -/
def jsonFuel (v : Json) : Nat :=
  match v with
  | .null => 1
  | .bool _ => 1
  | .num _ => 1
  | .str _ => 1
  | .arr xs => 1 + itemsFuel xs
  | .obj fs => 1 + membersFuel fs
termination_by sizeOf v
decreasing_by all_goals ((try simp); (try omega))

/-- Fuel for the item loop of an array. -/
def itemsFuel (xs : List Json) : Nat :=
  match xs with
  | [] => 1
  | x :: rest => 1 + jsonFuel x + itemsFuel rest
termination_by sizeOf xs
decreasing_by all_goals ((try simp); (try omega))

/-- Fuel for the member loop of an object. -/
def membersFuel (fs : List (String × Json)) : Nat :=
  match fs with
  | [] => 1
  | (k, w) :: rest => 1 + jsonFuel w + membersFuel rest
termination_by sizeOf fs
decreasing_by all_goals ((try simp); (try omega))

end

/-- Safe continuation for a numeral: the text after a printed number must
not begin with a digit or a point (in the dump format it is a comma, a
newline, a closing bracket or nothing). -/
def numSafe : List Char → Prop
  | [] => True
  | c :: _ => c.isDigit = false ∧ c ≠ '.'

/-- The text does not begin with a digit (where a digit run must end). -/
def headNotDigit : List Char → Prop
  | [] => True
  | c :: _ => c.isDigit = false

mutual

/-- One JSON value: skips leading whitespace, dispatches on the first
character.  Out of fuel: fails (never happens on enough fuel). -/
def parseVal : Nat → List Char → Option (Json × List Char)
  | 0, _ => none
  | fuel + 1, input =>
    match skipWs input with
    | [] => none
    | c :: r =>
      if c = 'n' then
        match r with
        | 'u' :: 'l' :: 'l' :: r₂ => some (.null, r₂)
        | _ => none
      else if c = 't' then
        match r with
        | 'r' :: 'u' :: 'e' :: r₂ => some (.bool true, r₂)
        | _ => none
      else if c = 'f' then
        match r with
        | 'a' :: 'l' :: 's' :: 'e' :: r₂ => some (.bool false, r₂)
        | _ => none
      else if c = qChar then
        (parseStringBody r).map (fun p => (.str ⟨p.1⟩, p.2))
      else if c = '[' then
        match skipWs r with
        | [] => none
        | c₂ :: r₂ =>
          if c₂ = ']' then some (.arr [], r₂)
          else (parseItems fuel (c₂ :: r₂)).map (fun p => (.arr p.1, p.2))
      else if c = lbChar then
        match skipWs r with
        | [] => none
        | c₂ :: r₂ =>
          if c₂ = rbChar then some (.obj [], r₂)
          else (parseMembers fuel (c₂ :: r₂)).map (fun p => (.obj p.1, p.2))
      else if c = '-' || c.isDigit then
        (parseNumber (c :: r)).map (fun p => (.num p.1, p.2))
      else none

/-- The items of an array after `[` (the empty array already handled):
a value, then a comma and more items or the closing bracket. -/
def parseItems : Nat → List Char → Option (List Json × List Char)
  | 0, _ => none
  | fuel + 1, input =>
    match parseVal fuel input with
    | none => none
    | some (v, rest) =>
      match skipWs rest with
      | [] => none
      | c :: rest₂ =>
        if c = ',' then (parseItems fuel rest₂).map (fun p => (v :: p.1, p.2))
        else if c = ']' then some ([v], rest₂)
        else none

/-- The members of an object after its brace (the empty object already
handled): a quoted key, a colon, a value, then a comma and more members
or the closing brace. -/
def parseMembers : Nat → List Char → Option (List (String × Json) × List Char)
  | 0, _ => none
  | fuel + 1, input =>
    match skipWs input with
    | [] => none
    | c :: r =>
      if c = qChar then
        match parseStringBody r with
        | none => none
        | some (key, r₁) =>
          match skipWs r₁ with
          | [] => none
          | c₁ :: r₂ =>
            if c₁ = ':' then
              match parseVal fuel r₂ with
              | none => none
              | some (v, r₃) =>
                match skipWs r₃ with
                | [] => none
                | c₃ :: r₄ =>
                  if c₃ = ',' then
                    (parseMembers fuel r₄).map
                      (fun p => ((⟨key⟩, v) :: p.1, p.2))
                  else if c₃ = rbChar then some ([(⟨key⟩, v)], r₄)
                  else none
            else none
      else none

end

/-- `json.dump(data, f, indent=2, ensure_ascii=False)`: the full text
written to the file. -/
def jsonDumps (v : Json) : String := ⟨printVal 0 v⟩

/-- `json.load(f)`: reads one JSON value off the file's text; anything
but trailing whitespace after it is an error. -/
def jsonLoads (s : String) : Option Json :=
  match parseVal (s.data.length + 1) s.data with
  | some (v, rest) => if skipWs rest = [] then some v else none
  | none => none

namespace DataService

/-- The data directory: the text each collection file currently holds. -/
def FileStore := String → Option String

/-- `DataService._save_json`: serializes the collection with
`json.dump(data, f, indent=2, ensure_ascii=False)` and replaces the
file's contents. -/
def save_json (fs : FileStore) (path : String) (data : Json) : FileStore :=
  fun p => if p = path then some (jsonDumps data) else fs p

/-- `DataService._load_json`: parses the file with `json.load`; any
failure (missing file, malformed text) is caught and reported, and the
method returns `[]` — or `{}` when the file is the config file. -/
def load_json (fs : FileStore) (path : String) (config_file : String) : Json :=
  let fallback : Json := if path ≠ config_file then .arr [] else .obj []
  match fs path with
  | some text =>
    match jsonLoads text with
    | some v => v
    | none => fallback
  | none => fallback

/-- The config record `_init_files` writes on first run. -/
def initialConfig : Json :=
  .obj [("api_key", .str ""),
        ("default_model", .str "sonar-pro"),
        ("default_max_tokens", Json.int 1000),
        ("default_temperature", .num ⟨7, 1⟩)]

end DataService

/-! ## General lemmas about the list combinators of the embedding -/

theorem updateFirst_eq_of_forall_neg {p : α → Bool} {f : α → α} :
    ∀ {l : List α}, (∀ x ∈ l, p x = false) → updateFirst p f l = l
  | [], _ => rfl
  | x :: xs, h => by
    have hx := h x (List.mem_cons_self x xs)
    simp only [updateFirst, hx, Bool.false_eq_true, if_false]
    exact congrArg (x :: ·) (updateFirst_eq_of_forall_neg fun y hy =>
      h y (List.mem_cons_of_mem x hy))

theorem updateFirst_append_left {p : α → Bool} {f : α → α} {l₁ : List α}
    (l₂ : List α) (h : ∀ x ∈ l₁, p x = false) :
    updateFirst p f (l₁ ++ l₂) = l₁ ++ updateFirst p f l₂ := by
  induction l₁ with
  | nil => rfl
  | cons x xs ih =>
    have hx := h x (List.mem_cons_self x xs)
    simp only [List.cons_append, updateFirst, hx, Bool.false_eq_true, if_false]
    exact congrArg (x :: ·) (ih fun y hy => h y (List.mem_cons_of_mem x hy))

theorem find?_updateFirst {p : α → Bool} {f : α → α}
    (hf : ∀ x, p x = true → p (f x) = true) :
    ∀ l : List α, (updateFirst p f l).find? p = (l.find? p).map f
  | [] => rfl
  | x :: xs => by
    by_cases hx : p x = true
    · simp [updateFirst, hx, List.find?_cons, hf x hx]
    · have hx' : p x = false := by simpa using hx
      simp [updateFirst, hx', List.find?_cons, find?_updateFirst hf xs]

/-! ## Claim theorems -/

/-- C2 (amended).  A single outcome call on an id whose entry is in status
`"sent"` performs exactly the transition the claim allows: `update_response`
takes it to `"completed"` and `update_error` takes it to `"error"`.  The
original claim over arbitrary call sequences fails (see the
counterexample): neither operation guards on the current status, so a later
`update_error` moves a completed entry to `"error"` and a later
`update_response` moves an errored entry to `"completed"`. -/
theorem status_single_update_transitions (requests : List ApiRequestLog)
    (rid : String) (response : PerplexityResponse) (response_json : String)
    (err : String) (d₁ d₂ : Int)
    (h : (DataService.get_request_by_id requests rid).map ApiRequestLog.status
          = some "sent") :
    (DataService.get_request_by_id
        (DataService.update_response requests rid response response_json d₁)
        rid).map ApiRequestLog.status = some "completed"
    ∧ (DataService.get_request_by_id
        (DataService.update_error requests rid err d₂)
        rid).map ApiRequestLog.status = some "error" := by
  obtain ⟨e, he, -⟩ : ∃ e, requests.find? (fun r => r.id == rid) = some e ∧
      e.status = "sent" := by
    cases hfind : requests.find? (fun r => r.id == rid) with
    | none => rw [DataService.get_request_by_id, hfind] at h; cases h
    | some e =>
      rw [DataService.get_request_by_id, hfind] at h
      exact ⟨e, rfl, by simpa using h⟩
  constructor
  · rw [DataService.get_request_by_id, DataService.update_response,
      find?_updateFirst (p := fun r => r.id == rid)
        (f := DataService.completeRow response response_json d₁)
        (fun x hx => hx), he]
    rfl
  · rw [DataService.get_request_by_id, DataService.update_error,
      find?_updateFirst (p := fun r => r.id == rid)
        (f := DataService.errorRow err d₂) (fun x hx => hx), he]
    rfl

/-- C2, witness for `status_single_update_transitions`: the one-row
collection in status `"sent"` moves to `"completed"` under
`update_response` and to `"error"` under `update_error`. -/
theorem status_single_update_transitions_witness :
    (DataService.get_request_by_id
        (DataService.update_response Samples.sentLog "req-1" Samples.response "rj" 5)
        "req-1").map ApiRequestLog.status = some "completed"
    ∧ (DataService.get_request_by_id
        (DataService.update_error Samples.sentLog "req-1" "boom" 6)
        "req-1").map ApiRequestLog.status = some "error" :=
  status_single_update_transitions Samples.sentLog "req-1" Samples.response
    "rj" "boom" 5 6 rfl

/-- C2, counterexample to the claim as stated: on a collection whose entry
is `"completed"` (after `update_response`), a later `update_error` call
still sets the status to `"error"` — the transition completed→error that
the claim rules out. -/
theorem status_regression_counterexample :
    (DataService.get_request_by_id
        (DataService.update_response Samples.sentLog "req-1" Samples.response "rj" 5)
        "req-1").map ApiRequestLog.status = some "completed"
    ∧ (DataService.get_request_by_id
        (DataService.update_error
          (DataService.update_response Samples.sentLog "req-1" Samples.response "rj" 5)
          "req-1" "boom" 6)
        "req-1").map ApiRequestLog.status = some "error" :=
  ⟨rfl, rfl⟩

/-- C4.  Each of `update_response`, `update_error`, `update_prompt_usage`
and `delete_prompt` called with an id that no row of the corresponding
collection carries completes and writes the collection back unchanged. -/
theorem missing_id_noop (requests : List ApiRequestLog)
    (prompts : List SavedPrompt) (rid pid : String)
    (response : PerplexityResponse) (response_json err : String)
    (d₁ d₂ now : Int)
    (h₁ : ∀ r ∈ requests, r.id ≠ rid) (h₂ : ∀ p ∈ prompts, p.id ≠ pid) :
    DataService.update_response requests rid response response_json d₁ = requests
    ∧ DataService.update_error requests rid err d₂ = requests
    ∧ DataService.update_prompt_usage prompts pid now = prompts
    ∧ DataService.delete_prompt prompts pid = prompts := by
  have hr : ∀ r ∈ requests, (r.id == rid) = false := fun r hr => by
    simpa using h₁ r hr
  have hp : ∀ p ∈ prompts, (p.id == pid) = false := fun p hp => by
    simpa using h₂ p hp
  refine ⟨updateFirst_eq_of_forall_neg hr, updateFirst_eq_of_forall_neg hr,
    updateFirst_eq_of_forall_neg hp, ?_⟩
  refine List.filter_eq_self.mpr fun p hmem => ?_
  simpa using h₂ p hmem

/-- C4, witness for `missing_id_noop`: on the one-row sample collections,
the four operations with the unused id `"ghost"` change nothing. -/
theorem missing_id_noop_witness :
    DataService.update_response Samples.sentLog "ghost" Samples.response "rj" 5
        = Samples.sentLog
    ∧ DataService.update_error Samples.sentLog "ghost" "boom" 6 = Samples.sentLog
    ∧ DataService.update_prompt_usage [] "ghost" 0 = []
    ∧ DataService.delete_prompt [] "ghost" = [] :=
  missing_id_noop Samples.sentLog [] "ghost" "ghost" Samples.response "rj"
    "boom" 5 6 0 (by decide) (by simp)

/-- C5.  When the generated id is fresh for the collection and the request
has at least one message, `log_request` immediately followed by
`get_request_by_id` on the returned id finds the new entry: status
`"sent"`, the request's model, and the first message's content as prompt. -/
theorem log_then_resolve (requests : List ApiRequestLog) (rid : String)
    (now : Int) (request : PerplexityRequest) (request_json : String)
    (hmsg : request.messages ≠ [])
    (hfresh : ∀ r ∈ requests, r.id ≠ rid) :
    ∃ e, DataService.get_request_by_id
            (DataService.log_request requests rid now request request_json).1
            (DataService.log_request requests rid now request request_json).2
          = some e
      ∧ e.status = "sent"
      ∧ e.model = request.model
      ∧ request.messages.head?.map PerplexityMessage.content = some e.prompt := by
  obtain ⟨m, ms, hm⟩ : ∃ m ms, request.messages = m :: ms := by
    cases hms : request.messages with
    | nil => exact absurd hms hmsg
    | cons m ms => exact ⟨m, ms, rfl⟩
  have hnone : requests.find? (fun r => r.id == rid) = none := by
    rw [List.find?_eq_none]
    intro r hr
    simpa using hfresh r hr
  simp only [DataService.log_request, DataService.get_request_by_id, hm]
  refine ⟨{ id := rid, timestamp := now, model := request.model,
            prompt := m.content, request_json := request_json,
            status := "sent" }, ?_, rfl, rfl, ?_⟩
  · rw [List.find?_append, hnone]
    simp [List.find?_cons]
  · simp

/-- C5, witness for `log_then_resolve`: logging the sample request into
the sample collection under the fresh id `"req-2"` resolves to a sent
entry with model `"sonar-pro"` and prompt `"hi"`. -/
theorem log_then_resolve_witness :
    ∃ e, DataService.get_request_by_id
            (DataService.log_request Samples.sentLog "req-2" 3 Samples.request "rq2").1
            (DataService.log_request Samples.sentLog "req-2" 3 Samples.request "rq2").2
          = some e
      ∧ e.status = "sent"
      ∧ e.model = Samples.request.model
      ∧ Samples.request.messages.head?.map PerplexityMessage.content = some e.prompt :=
  log_then_resolve Samples.sentLog "req-2" 3 Samples.request "rq2"
    (by decide) (by decide)

/-- C8.  Saving a fresh prompt (usage_count 0, last_used absent) and
calling `update_prompt_usage` three times at instants `t₁ ≤ t₂ ≤ t₃`
leaves the rest of the collection alone and stores the prompt with
`usage_count = 3` and `last_used` equal to the last call's instant; in
general one call on a found prompt increments `usage_count` by exactly one
and overwrites `last_used` with the call's instant. -/
theorem prompt_usage_increments (prompts : List SavedPrompt) (pid : String)
    (now t₁ t₂ t₃ : Int) (name content description category : String)
    (hfresh : ∀ p ∈ prompts, p.id ≠ pid) :
    DataService.update_prompt_usage
        (DataService.update_prompt_usage
          (DataService.update_prompt_usage
            (DataService.save_prompt prompts pid now name content
              description category).1
            pid t₁)
          pid t₂)
        pid t₃
      = prompts ++ [{ id := pid, name := name, description := description,
                      content := content, category := category,
                      created_at := now, last_used := some t₃,
                      usage_count := 3 }]
    ∧ ∀ (ps : List SavedPrompt) (i : String) (t : Int) (p : SavedPrompt),
        ps.find? (fun q => q.id == i) = some p →
        (DataService.update_prompt_usage ps i t).find? (fun q => q.id == i)
          = some { p with last_used := some t, usage_count := p.usage_count + 1 } := by
  constructor
  · have hp : ∀ p ∈ prompts, ((fun q : SavedPrompt => q.id == pid) p) = false :=
      fun p hp => by simpa using hfresh p hp
    simp only [DataService.save_prompt, DataService.update_prompt_usage]
    rw [updateFirst_append_left _ hp, updateFirst_append_left _ hp,
      updateFirst_append_left _ hp]
    simp [updateFirst, DataService.usedRow]
  · intro ps i t p hfind
    rw [DataService.update_prompt_usage,
      find?_updateFirst (p := fun q => q.id == i)
        (f := DataService.usedRow t) (fun x hx => hx), hfind]
    rfl

/-- C8, witness for `prompt_usage_increments`: starting from the empty
prompt collection, saving a prompt and marking it used at instants 1, 2
and 3 yields exactly that prompt with usage_count 3 and last_used 3. -/
theorem prompt_usage_increments_witness :
    DataService.update_prompt_usage
        (DataService.update_prompt_usage
          (DataService.update_prompt_usage
            (DataService.save_prompt [] "p1" 0 "n" "c" "d" "Custom").1
            "p1" 1)
          "p1" 2)
        "p1" 3
      = [{ id := "p1", name := "n", description := "d", content := "c",
           category := "Custom", created_at := 0, last_used := some 3,
           usage_count := 3 }]
    ∧ ∀ (ps : List SavedPrompt) (i : String) (t : Int) (p : SavedPrompt),
        ps.find? (fun q => q.id == i) = some p →
        (DataService.update_prompt_usage ps i t).find? (fun q => q.id == i)
          = some { p with last_used := some t, usage_count := p.usage_count + 1 } :=
  prompt_usage_increments [] "p1" 0 1 2 3 "n" "c" "d" "Custom" (by simp)

theorem tokens_sum_filter_eq (l : List ApiRequestLog) :
    ((l.filter (fun r => DataService.tokensTruthy r.total_tokens)).map
        (fun r => r.total_tokens.getD 0)).sum
      = (l.map (fun r => r.total_tokens.getD 0)).sum := by
  induction l with
  | nil => rfl
  | cons r rs ih =>
    cases hr : DataService.tokensTruthy r.total_tokens with
    | true => simp [List.filter_cons, hr, ih]
    | false =>
      have hz : r.total_tokens.getD 0 = 0 := by
        cases ht : r.total_tokens with
        | none => rfl
        | some n =>
          rw [ht] at hr
          simp only [DataService.tokensTruthy, bne_eq_false_iff_eq] at hr
          simp [hr]
      simp [List.filter_cons, hr, hz, ih]

theorem sum_snd_bumpCount (m : String) :
    ∀ acc : List (String × Nat),
      ((DataService.bumpCount m acc).map Prod.snd).sum
        = ((acc.map Prod.snd)).sum + 1
  | [] => by simp [DataService.bumpCount]
  | (k, n) :: rest => by
    by_cases hk : k == m
    · simp [DataService.bumpCount, hk]
      ring
    · simp only [DataService.bumpCount, hk, Bool.false_eq_true, if_false,
        List.map_cons, List.sum_cons, sum_snd_bumpCount m rest]
      ring

theorem sum_snd_foldl_bump (l : List ApiRequestLog) :
    ∀ acc : List (String × Nat),
      ((List.foldl (fun a r => DataService.bumpCount r.model a) acc l).map
          Prod.snd).sum
        = (acc.map Prod.snd).sum + l.length := by
  induction l with
  | nil => intro acc; simp
  | cons r rs ih =>
    intro acc
    simp only [List.foldl_cons, ih, sum_snd_bumpCount, List.length_cons]
    ring

theorem lookup_bumpCount (m k : String) :
    ∀ acc : List (String × Nat),
      (DataService.bumpCount m acc).lookup k
        = if k == m then some (((acc.lookup k).getD 0) + 1)
          else acc.lookup k
  | [] => by
    by_cases hk : k = m
    · subst hk
      simp [DataService.bumpCount, List.lookup]
    · have hb : (k == m) = false := by simp [hk]
      simp [DataService.bumpCount, List.lookup, hb]
  | (k', n) :: rest => by
    by_cases hkm : k' = m
    · subst hkm
      by_cases hk : k = k'
      · subst hk
        simp [DataService.bumpCount, List.lookup_cons]
      · have hb : (k == k') = false := by simp [hk]
        simp [DataService.bumpCount, List.lookup_cons, hb]
    · have hu : (k' == m) = false := by simp [hkm]
      by_cases hk : k = k'
      · subst hk
        have hkm' : (k == m) = false := by simp [hkm]
        simp [DataService.bumpCount, hu, List.lookup_cons, hkm']
      · have hb : (k == k') = false := by simp [hk]
        simp [DataService.bumpCount, hu, List.lookup_cons, hb,
          lookup_bumpCount m k rest]

theorem lookup_foldl_bump (k : String) (l : List ApiRequestLog) :
    ∀ acc : List (String × Nat),
      ((List.foldl (fun a r => DataService.bumpCount r.model a) acc l).lookup
          k).getD 0
        = (acc.lookup k).getD 0 + (l.filter (fun r => r.model == k)).length := by
  induction l with
  | nil => intro acc; simp
  | cons r rs ih =>
    intro acc
    simp only [List.foldl_cons, ih, lookup_bumpCount, List.filter_cons]
    by_cases hk : k = r.model
    · have h1 : (k == r.model) = true := by simp [hk]
      have h2 : (r.model == k) = true := by simp [hk]
      simp [h1, h2]
      ring
    · have h1 : (k == r.model) = false := by simp [hk]
      have h2 : (r.model == k) = false := by simp [Ne.symm hk]
      simp [h1, h2]

/-- C1.  `get_usage_statistics` computes, over any request-log collection:
the number of rows, the number of completed rows, the sum of
`total_tokens` over the rows that carry a token count (a row of any status
counts), `success_rate = completed/total*100` (0 when there are no rows),
`avg_tokens_per_request = total_tokens/completed` (0 when no row is
completed) and the number of rows of the last seven days; on the synthetic
collection of three completed rows with 30, 20, 10 tokens and one error
row over ten days it returns total_requests 4, completed_requests 3,
total_tokens 60, success_rate 75, avg_tokens_per_request 20 and
recent_requests 3. -/
theorem usage_statistics_correct :
    (∀ (requests : List ApiRequestLog) (now : Int),
      (DataService.get_usage_statistics requests now).total_requests
          = requests.length
      ∧ (DataService.get_usage_statistics requests now).completed_requests
          = (requests.filter (fun r => r.status == "completed")).length
      ∧ (DataService.get_usage_statistics requests now).total_tokens
          = (requests.map (fun r => r.total_tokens.getD 0)).sum
      ∧ (DataService.get_usage_statistics requests now).success_rate
          = (if requests.length = 0 then 0 else
              ((requests.filter (fun r => r.status == "completed")).length : ℚ)
                / (requests.length : ℚ) * 100)
      ∧ (DataService.get_usage_statistics requests now).avg_tokens_per_request
          = (if (requests.filter (fun r => r.status == "completed")).length = 0
             then 0 else
              (((requests.map (fun r => r.total_tokens.getD 0)).sum : Int) : ℚ)
                / (((requests.filter
                      (fun r => r.status == "completed")).length : Nat) : ℚ))
      ∧ (DataService.get_usage_statistics requests now).recent_requests
          = (requests.filter
              (fun r => now - DataService.sevenDays ≤ r.timestamp)).length)
    ∧ DataService.get_usage_statistics Samples.statsRequests Samples.now
        = { total_requests := 4, completed_requests := 3, total_tokens := 60,
            success_rate := 75, model_usage := [("sonar-pro", 4)],
            recent_requests := 3, avg_tokens_per_request := 20 } := by
  constructor
  · intro requests now
    refine ⟨rfl, rfl, tokens_sum_filter_eq requests, ?_, ?_, rfl⟩
    · by_cases h : requests.length = 0
      · simp [DataService.get_usage_statistics, h]
      · simp [DataService.get_usage_statistics, h, Nat.pos_of_ne_zero h]
    · by_cases h : (requests.filter (fun r => r.status == "completed")).length = 0
      · simp [DataService.get_usage_statistics, h]
      · simp [DataService.get_usage_statistics, h, Nat.pos_of_ne_zero h,
          tokens_sum_filter_eq]
  · have h1 : Samples.statsRequests.length = 4 := by decide
    have h2 : (Samples.statsRequests.filter
        (fun r => r.status == "completed")).length = 3 := by decide
    have h3 : ((Samples.statsRequests.filter
        (fun r => DataService.tokensTruthy r.total_tokens)).map
        (fun r => r.total_tokens.getD 0)).sum = 60 := by decide
    have h4 : List.foldl (fun a r => DataService.bumpCount r.model a) []
        Samples.statsRequests = [("sonar-pro", 4)] := by decide
    have h5 : (Samples.statsRequests.filter
        (fun r => Samples.now - DataService.sevenDays ≤ r.timestamp)).length
        = 3 := by decide
    simp only [DataService.get_usage_statistics,
      DataService.UsageStatistics.mk.injEq, h1, h2, h3, h4, h5]
    norm_num

/-- C10.  The `model_usage` mapping of `get_usage_statistics` counts every
row exactly once under its model key, rows of every status: its counts sum
to `total_requests`, and the count stored under any model is the number of
rows with that model. -/
theorem model_usage_totals (requests : List ApiRequestLog) (now : Int) :
    (((DataService.get_usage_statistics requests now).model_usage).map
        Prod.snd).sum
      = (DataService.get_usage_statistics requests now).total_requests
    ∧ ∀ m : String,
        (((DataService.get_usage_statistics requests now).model_usage).lookup
            m).getD 0
          = (requests.filter (fun r => r.model == m)).length := by
  constructor
  · show ((List.foldl (fun a r => DataService.bumpCount r.model a) [] requests).map
        Prod.snd).sum = requests.length
    simpa using sum_snd_foldl_bump requests []
  · intro m
    show ((List.foldl (fun a r => DataService.bumpCount r.model a) [] requests).lookup
        m).getD 0 = (requests.filter (fun r => r.model == m)).length
    simpa using lookup_foldl_bump m requests []

theorem lookup_append {α β : Type} [BEq α] (l₁ l₂ : List (α × β)) (k : α) :
    (l₁ ++ l₂).lookup k = ((l₁.lookup k).or (l₂.lookup k)) := by
  induction l₁ with
  | nil => simp [List.lookup]
  | cons p rest ih =>
    obtain ⟨k', v⟩ := p
    cases hb : (k == k') with
    | true => simp [List.lookup_cons, hb, Option.or]
    | false => simp [List.lookup_cons, hb, ih]

theorem lookup_optEntry (key k : String) (o : Option Json) :
    (optEntry key o).lookup k = if k == key then o else none := by
  cases o with
  | none => cases hb : (k == key) <;> simp [optEntry, List.lookup, hb]
  | some v => cases hb : (k == key) <;> simp [optEntry, List.lookup_cons, hb]

theorem mem_optEntry {key k : String} {o : Option Json} {v : Json}
    (h : (k, v) ∈ optEntry key o) : o = some v ∧ k = key := by
  cases o with
  | none => cases h
  | some w =>
    simp only [optEntry, List.mem_singleton, Prod.mk.injEq] at h
    exact ⟨by rw [h.2], h.1⟩

theorem optEntry_ne_null {α : Type} {key k : String} {o : Option α}
    {g : α → Json} {v : Json} (hg : ∀ x, g x ≠ Json.null)
    (h : (k, v) ∈ optEntry key (o.map g)) : v ≠ Json.null := by
  obtain ⟨ho, -⟩ := mem_optEntry h
  obtain ⟨x, -, hx⟩ := Option.map_eq_some'.mp ho
  exact hx ▸ hg x

/-- C6.  The wire payload `PerplexityRequest.to_dict` carries exactly the
set fields: `model` and `messages` always (the messages as the ordered
list of `{role, content}` objects), each optional field exactly when it is
not `None` and then with its value, and no key ever holds JSON `null`. -/
theorem to_dict_omits_unset (r : PerplexityRequest) :
    r.to_dict.lookup "model" = some (.str r.model)
    ∧ r.to_dict.lookup "messages"
        = some (.arr (r.messages.map PerplexityMessage.toJson))
    ∧ r.to_dict.lookup "max_tokens" = r.max_tokens.map Json.int
    ∧ r.to_dict.lookup "temperature" = r.temperature.map Json.num
    ∧ r.to_dict.lookup "top_p" = r.top_p.map Json.num
    ∧ r.to_dict.lookup "presence_penalty" = r.presence_penalty.map Json.num
    ∧ r.to_dict.lookup "frequency_penalty" = r.frequency_penalty.map Json.num
    ∧ r.to_dict.lookup "stream" = r.stream.map Json.bool
    ∧ r.to_dict.lookup "return_citations" = r.return_citations.map Json.bool
    ∧ r.to_dict.lookup "return_related_questions"
        = r.return_related_questions.map Json.bool
    ∧ r.to_dict.lookup "return_images" = r.return_images.map Json.bool
    ∧ ∀ k v, (k, v) ∈ r.to_dict → v ≠ Json.null := by
  refine ⟨?_, ?_, ?_, ?_, ?_, ?_, ?_, ?_, ?_, ?_, ?_, ?_⟩
  case _ => simp +decide [PerplexityRequest.to_dict, List.lookup_cons, lookup_append, lookup_optEntry]
  case _ => simp +decide [PerplexityRequest.to_dict, List.lookup_cons, lookup_append, lookup_optEntry]
  case _ => simp +decide [PerplexityRequest.to_dict, List.lookup_cons, lookup_append, lookup_optEntry]
  case _ => simp +decide [PerplexityRequest.to_dict, List.lookup_cons, lookup_append, lookup_optEntry]
  case _ => simp +decide [PerplexityRequest.to_dict, List.lookup_cons, lookup_append, lookup_optEntry]
  case _ => simp +decide [PerplexityRequest.to_dict, List.lookup_cons, lookup_append, lookup_optEntry]
  case _ => simp +decide [PerplexityRequest.to_dict, List.lookup_cons, lookup_append, lookup_optEntry]
  case _ => simp +decide [PerplexityRequest.to_dict, List.lookup_cons, lookup_append, lookup_optEntry]
  case _ => simp +decide [PerplexityRequest.to_dict, List.lookup_cons, lookup_append, lookup_optEntry]
  case _ => simp +decide [PerplexityRequest.to_dict, List.lookup_cons, lookup_append, lookup_optEntry]
  case _ => simp +decide [PerplexityRequest.to_dict, List.lookup_cons, lookup_append, lookup_optEntry]
  case _ =>
    intro k v hmem
    simp only [PerplexityRequest.to_dict, List.append_assoc, List.mem_append,
      List.mem_cons, List.not_mem_nil, or_false] at hmem
    rcases hmem with (h | h) | h | h | h | h | h | h | h | h | h
    · cases h; nofun
    · cases h; nofun
    · exact optEntry_ne_null (fun x => by simp [Json.int]) h
    · exact optEntry_ne_null (fun x => by simp) h
    · exact optEntry_ne_null (fun x => by simp) h
    · exact optEntry_ne_null (fun x => by simp) h
    · exact optEntry_ne_null (fun x => by simp) h
    · exact optEntry_ne_null (fun x => by simp) h
    · exact optEntry_ne_null (fun x => by simp) h
    · exact optEntry_ne_null (fun x => by simp) h
    · exact optEntry_ne_null (fun x => by simp) h

/-- C7.  `send_chat_request` delegates the request it builds, unchanged,
to `send_request`; with no tuning options the request is the single user
message with the source's defaults (max_tokens 1000, temperature 0.7,
top_p 1.0, both penalties 0.0, stream false, citations and related
questions on, images off), and explicitly supplied tuning options replace
their defaults. -/
theorem send_chat_request_defaults :
    (∀ (send : PerplexityRequest → Option PerplexityResponse)
        (prompt model : String) (kwargs : PerplexityService.ChatKwargs),
      PerplexityService.send_chat_request send prompt model kwargs
        = send (PerplexityService.build_chat_request prompt model kwargs))
    ∧ (∀ prompt model : String,
      PerplexityService.build_chat_request prompt model {}
        = { model := model,
            messages := [{ role := "user", content := prompt }],
            max_tokens := some 1000, temperature := some ⟨7, 1⟩,
            top_p := some ⟨10, 1⟩, presence_penalty := some ⟨0, 1⟩,
            frequency_penalty := some ⟨0, 1⟩, stream := some false,
            return_citations := some true,
            return_related_questions := some true,
            return_images := some false })
    ∧ (∀ (prompt model : String) (mt : Int) (te tp pp fp : JNum)
        (rc rq ri : Bool),
      PerplexityService.build_chat_request prompt model
          { max_tokens := some mt, temperature := some te, top_p := some tp,
            presence_penalty := some pp, frequency_penalty := some fp,
            return_citations := some rc, return_related_questions := some rq,
            return_images := some ri }
        = { model := model,
            messages := [{ role := "user", content := prompt }],
            max_tokens := some mt, temperature := some te, top_p := some tp,
            presence_penalty := some pp, frequency_penalty := some fp,
            stream := some false, return_citations := some rc,
            return_related_questions := some rq,
            return_images := some ri }) :=
  ⟨fun _ _ _ _ => rfl, fun _ _ => rfl, fun _ _ _ _ _ _ _ _ _ _ => rfl⟩

theorem except_ok_bind {ε α β : Type} (a : α) (f : α → Except ε β) :
    (Except.ok (ε := ε) a >>= f) = f a := rfl

theorem except_bind_ok {ε α β : Type} {x : Except ε α} {f : α → Except ε β}
    {b : β} :
    (x >>= f) = Except.ok b ↔ ∃ a, x = Except.ok a ∧ f a = Except.ok b := by
  cases x <;> simp [Bind.bind, Except.bind]

/-- C3 (amended).  `_parse_response` reads every top-level field with a
defaulted `.get`, so a missing key never causes a parse failure, required
or not: on a successfully parsed payload, an absent `search_results`
(likewise `related_questions`, `citations`) yields the absent field; and
an absent `usage` — which the claim said must produce a parse error —
also parses, yielding the all-zero usage record.  A parse error can arise
only from an ill-shaped present field (for instance a `usage` value that
is not an object), never from a missing one (see the counterexample). -/
theorem parse_optional_and_required_fields (root : List (String × Json))
    (resp : PerplexityResponse)
    (hok : PerplexityService.parse_response (Json.obj root) = Except.ok resp) :
    (root.lookup "search_results" = none → resp.search_results = none)
    ∧ (root.lookup "related_questions" = none → resp.related_questions = none)
    ∧ (root.lookup "citations" = none → resp.citations = none)
    ∧ (root.lookup "usage" = none
        → resp.usage = { prompt_tokens := 0, completion_tokens := 0,
                         total_tokens := 0 }) := by
  rw [PerplexityService.parse_response] at hok
  simp only [asObjE, except_ok_bind, except_bind_ok] at hok
  obtain ⟨u, hu, pt, hpt, ct, hct, tt, htt, cj, hcj, cs, hcs, sr, hsr, i, hi,
    ob, hob, cr, hcr, mo, hmo, rq, hrq, ci, hci, hfinal⟩ := hok
  injection hfinal with hfinal
  subst hfinal
  refine ⟨?_, ?_, ?_, ?_⟩
  · intro hnone
    have hkey : jsonHasKey root "search_results" = false := by
      simp [jsonHasKey, hnone]
    rw [PerplexityService.parseSearchResultsField, hkey, Bool.false_and,
      if_neg (by simp)] at hsr
    injection hsr with hsr
    subst hsr
    rfl
  · intro hnone
    rw [hnone] at hrq
    injection hrq with hrq
    subst hrq
    rfl
  · intro hnone
    rw [hnone] at hci
    injection hci with hci
    subst hci
    rfl
  · intro hnone
    have hobj : jsonGetD root "usage" (.obj []) = .obj [] := by
      simp [jsonGetD, hnone]
    rw [hobj] at hu
    injection hu with hu
    subst hu
    simp only [jsonGetD, List.lookup, Json.int, asIntE] at hpt hct htt
    injection hpt with hpt
    injection hct with hct
    injection htt with htt
    subst hpt
    subst hct
    subst htt
    rfl

/-- C3, witness for `parse_optional_and_required_fields`: the concrete
payload without a `usage` key parses successfully, and the theorem applied
to it gives the zero usage record and the absent `search_results`. -/
theorem parse_optional_and_required_fields_witness :
    PerplexityService.parse_response (Json.obj Samples.noUsageFields)
        = Except.ok Samples.noUsageResponse
    ∧ Samples.noUsageResponse.usage
        = { prompt_tokens := 0, completion_tokens := 0, total_tokens := 0 }
    ∧ Samples.noUsageResponse.search_results = none :=
  ⟨rfl,
   (parse_optional_and_required_fields Samples.noUsageFields
       Samples.noUsageResponse rfl).2.2.2 rfl,
   (parse_optional_and_required_fields Samples.noUsageFields
       Samples.noUsageResponse rfl).1 rfl⟩

/-- C3, counterexample to the claim as stated: a payload that lacks the
required `usage` key (but carries `id`, `object`, `created`, `model` and
one well-formed choice) is parsed successfully into a response with
all-zero usage — `_parse_response` produces no parse error for it. -/
theorem parse_missing_usage_counterexample :
    PerplexityService.parse_response (Json.obj Samples.noUsageFields)
      = Except.ok Samples.noUsageResponse := rfl

/-! ## The JSON text layer: lemmas -/

theorem skipWs_cons_neg {c : Char} {l : List Char} (h : isWsChar c = false) :
    skipWs (c :: l) = c :: l := by
  simp [skipWs, h]

theorem skipWs_append_ws {ws : List Char}
    (h : ∀ c ∈ ws, isWsChar c = true) (l : List Char) :
    skipWs (ws ++ l) = skipWs l := by
  induction ws with
  | nil => rfl
  | cons c cs ih =>
    have hc := h c (List.mem_cons_self c cs)
    simp only [List.cons_append, skipWs, hc, if_true]
    exact ih fun x hx => h x (List.mem_cons_of_mem c hx)

theorem allWs_ind (lvl : Nat) : ∀ c ∈ ind lvl, isWsChar c = true := by
  intro c hc
  have hc' : c ∈ List.replicate (2 * lvl) ' ' := by simpa [ind] using hc
  rw [List.eq_of_mem_replicate hc']
  rfl

theorem digit_not_ws {c : Char} (h : c.isDigit = true) : isWsChar c = false := by
  by_contra hw
  have hw' : isWsChar c = true := by
    cases hws : isWsChar c with
    | true => rfl
    | false => exact absurd hws hw
  simp only [isWsChar, Bool.or_eq_true, beq_iff_eq] at hw'
  rcases hw' with ((rfl | rfl) | rfl) | rfl <;> exact absurd h (by decide)

theorem digit_ne {c : Char} (h : c.isDigit = true) (d : Char)
    (hd : d.isDigit = false) : c ≠ d := by
  intro he
  rw [he, hd] at h
  cases h

theorem digitChar_isDigit : ∀ d : Nat, d < 10 → (Nat.digitChar d).isDigit = true := by
  decide

theorem digitVal_digitChar : ∀ d : Nat, d < 10 → digitVal (Nat.digitChar d) = d := by
  decide

theorem charsOfNat_ne_nil (n : Nat) : charsOfNat n ≠ [] := by
  rw [charsOfNat]
  by_cases h : n = 0
  · simp [h]
  · simp only [h, if_false]
    simp only [ne_eq, List.reverse_eq_nil_iff, List.map_eq_nil_iff]
    exact Nat.digits_ne_nil_iff_ne_zero.mpr h

theorem charsOfNat_digits (n : Nat) : ∀ c ∈ charsOfNat n, c.isDigit = true := by
  intro c hc
  rw [charsOfNat] at hc
  by_cases h : n = 0
  · simp [h] at hc
    rw [hc]; rfl
  · simp only [h, if_false, List.mem_reverse, List.mem_map] at hc
    obtain ⟨d, hd, rfl⟩ := hc
    exact digitChar_isDigit d (Nat.digits_lt_base (by norm_num) hd)

theorem foldl_digitChars (L : List Nat) (hL : ∀ d ∈ L, d < 10) :
    ∀ a : Nat,
      List.foldl (fun acc c => acc * 10 + digitVal c) a ((L.map Nat.digitChar).reverse)
        = a * 10 ^ L.length + Nat.ofDigits 10 L := by
  induction L with
  | nil => intro a; simp [Nat.ofDigits]
  | cons d ds ih =>
    intro a
    have hd : d < 10 := hL d (List.mem_cons_self d ds)
    have hds : ∀ x ∈ ds, x < 10 := fun x hx => hL x (List.mem_cons_of_mem d hx)
    simp only [List.map_cons, List.reverse_cons, List.foldl_append,
      List.foldl_cons, List.foldl_nil, ih hds a]
    rw [digitVal_digitChar d hd, Nat.ofDigits_cons, List.length_cons, pow_succ]
    ring

theorem digitsVal_charsOfNat (n : Nat) : digitsVal (charsOfNat n) = n := by
  rw [charsOfNat]
  by_cases h : n = 0
  · simp [h, digitsVal, digitVal]
  · simp only [h, if_false, digitsVal]
    rw [foldl_digitChars (Nat.digits 10 n)
      (fun d hd => Nat.digits_lt_base (by norm_num) hd) 0]
    simp [Nat.ofDigits_digits]

theorem foldl_zeros (k : Nat) :
    List.foldl (fun a c => a * 10 + digitVal c) 0 (List.replicate k '0') = 0 := by
  induction k with
  | zero => rfl
  | succ k ih =>
    rw [List.replicate_succ, List.foldl_cons]
    have h0 : (0 * 10 + digitVal '0') = 0 := by decide
    rw [h0]
    exact ih

theorem digitsVal_zeros (k : Nat) (l : List Char) :
    digitsVal (List.replicate k '0' ++ l) = digitsVal l := by
  rw [digitsVal, List.foldl_append, foldl_zeros]
  rfl

theorem takeWhile_digits_append {ds : List Char}
    (hds : ∀ c ∈ ds, c.isDigit = true) {rest : List Char}
    (hrest : headNotDigit rest) :
    (ds ++ rest).takeWhile Char.isDigit = ds := by
  induction ds with
  | nil =>
    cases rest with
    | nil => rfl
    | cons c r => simp [List.takeWhile_cons, show c.isDigit = false from hrest]
  | cons c cs ih =>
    have hc := hds c (List.mem_cons_self c cs)
    simp only [List.cons_append, List.takeWhile_cons, hc, if_true]
    exact congrArg (c :: ·) (ih fun x hx => hds x (List.mem_cons_of_mem c hx))

theorem dropWhile_digits_append {ds : List Char}
    (hds : ∀ c ∈ ds, c.isDigit = true) {rest : List Char}
    (hrest : headNotDigit rest) :
    (ds ++ rest).dropWhile Char.isDigit = rest := by
  induction ds with
  | nil =>
    cases rest with
    | nil => rfl
    | cons c r => simp [List.dropWhile_cons, show c.isDigit = false from hrest]
  | cons c cs ih =>
    have hc := hds c (List.mem_cons_self c cs)
    simp only [List.cons_append, List.dropWhile_cons, hc, if_true]
    exact ih fun x hx => hds x (List.mem_cons_of_mem c hx)

theorem span_digits {ds : List Char} (hds : ∀ c ∈ ds, c.isDigit = true)
    {rest : List Char} (hrest : headNotDigit rest) :
    (ds ++ rest).span Char.isDigit = (ds, rest) := by
  rw [List.span_eq_take_drop, takeWhile_digits_append hds hrest,
    dropWhile_digits_append hds hrest]


theorem numSafe_headNotDigit {rest : List Char} (h : numSafe rest) :
    headNotDigit rest := by
  cases rest with
  | nil => trivial
  | cons c r => exact h.1

theorem printDecimal_head (mag e : Nat) :
    ∃ c cs, printDecimal mag e = c :: cs ∧ c.isDigit = true := by
  rw [printDecimal]
  by_cases he : e = 0
  · simp only [he, if_true, reduceIte]
    obtain ⟨c, cs, hc⟩ := List.exists_cons_of_ne_nil (charsOfNat_ne_nil mag)
    exact ⟨c, cs, hc, charsOfNat_digits mag c (hc ▸ List.mem_cons_self c cs)⟩
  · simp only [he, if_false]
    set padded : List Char :=
      List.replicate (e + 1 - (charsOfNat mag).length) '0' ++ charsOfNat mag
      with hpad
    have hplen : e + 1 ≤ padded.length := by
      rw [hpad, List.length_append, List.length_replicate]
      omega
    have hklen : (padded.take (padded.length - e)).length
        = padded.length - e := by
      rw [List.length_take]
      omega
    obtain ⟨c, cs, hc⟩ : ∃ c cs, padded.take (padded.length - e) = c :: cs := by
      cases htk : padded.take (padded.length - e) with
      | nil => rw [htk] at hklen; simp at hklen; omega
      | cons c cs => exact ⟨c, cs, rfl⟩
    have hcd : c.isDigit = true := by
      have hmem : c ∈ padded := List.mem_of_mem_take (hc ▸ List.mem_cons_self c cs)
      rw [hpad] at hmem
      rcases List.mem_append.mp hmem with hmem | hmem
      · rw [List.eq_of_mem_replicate hmem]; rfl
      · exact charsOfNat_digits mag c hmem
    exact ⟨c, cs ++ '.' :: padded.drop (padded.length - e), by rw [hc]; rfl, hcd⟩

theorem parseUnsigned_printDecimal (mag e : Nat) (rest : List Char)
    (hrest : numSafe rest) :
    parseUnsigned (printDecimal mag e ++ rest) = some (mag, e, rest) := by
  rw [printDecimal]
  by_cases he : e = 0
  · subst he
    simp only [if_true, reduceIte]
    obtain ⟨c₀, cs, hc⟩ := List.exists_cons_of_ne_nil (charsOfNat_ne_nil mag)
    have hdig : ∀ c ∈ charsOfNat mag, c.isDigit = true := charsOfNat_digits mag
    rw [parseUnsigned]
    rw [span_digits hdig (numSafe_headNotDigit hrest)]
    simp only
    rw [if_neg (by rw [List.isEmpty_eq_true]; exact charsOfNat_ne_nil mag)]
    cases rest with
    | nil => simp [digitsVal_charsOfNat]
    | cons c r =>
      simp only
      rw [if_neg hrest.2]
      simp [digitsVal_charsOfNat]
  · simp only [he, if_false]
    set padded : List Char :=
      List.replicate (e + 1 - (charsOfNat mag).length) '0' ++ charsOfNat mag
      with hpad
    have hpad_dig : ∀ c ∈ padded, c.isDigit = true := by
      intro c hcmem
      rw [hpad] at hcmem
      rcases List.mem_append.mp hcmem with hmem | hmem
      · rw [List.eq_of_mem_replicate hmem]; rfl
      · exact charsOfNat_digits mag c hmem
    have hplen : e + 1 ≤ padded.length := by
      rw [hpad, List.length_append, List.length_replicate]
      omega
    set k : Nat := padded.length - e with hk
    have htD : ∀ c ∈ padded.take k, c.isDigit = true :=
      fun c hcm => hpad_dig c (List.mem_of_mem_take hcm)
    have hdD : ∀ c ∈ padded.drop k, c.isDigit = true :=
      fun c hcm => hpad_dig c (List.mem_of_mem_drop hcm)
    have htlen : (padded.take k).length = k := by
      rw [List.length_take]; omega
    have hdlen : (padded.drop k).length = e := by
      rw [List.length_drop]; omega
    have htake_ne : padded.take k ≠ [] := by
      intro hx
      rw [hx] at htlen
      simp at htlen
      omega
    have hdrop_ne : padded.drop k ≠ [] := by
      intro hx
      rw [hx] at hdlen
      simp at hdlen
      omega
    rw [parseUnsigned]
    have hassoc : (padded.take k ++ '.' :: padded.drop k) ++ rest
        = padded.take k ++ '.' :: (padded.drop k ++ rest) := by simp
    rw [hassoc]
    rw [span_digits htD (by exact (by decide : ('.' : Char).isDigit = false))]
    simp only
    rw [if_neg (by rw [List.isEmpty_eq_true]; exact htake_ne)]
    simp only [reduceIte]
    rw [span_digits hdD (numSafe_headNotDigit hrest)]
    simp only
    rw [if_neg (by rw [List.isEmpty_eq_true]; exact hdrop_ne)]
    rw [List.take_append_drop]
    rw [hpad, digitsVal_zeros, digitsVal_charsOfNat, hdlen]

theorem parseNumber_printJNum (n : JNum) (rest : List Char)
    (hrest : numSafe rest) :
    parseNumber (printJNum n ++ rest) = some (n, rest) := by
  obtain ⟨m, e⟩ := n
  rw [printJNum]
  by_cases hm : m < 0
  · simp only [hm, if_true, reduceIte, List.cons_append]
    rw [parseNumber]
    simp only [reduceIte]
    rw [parseUnsigned_printDecimal m.natAbs e rest hrest]
    simp only [Option.map_some', Option.some.injEq, Prod.mk.injEq,
      JNum.mk.injEq, and_true]
    omega
  · simp only [hm, if_false]
    obtain ⟨c₀, cs, hc, hcd⟩ := printDecimal_head m.natAbs e
    rw [hc, List.cons_append, parseNumber,
      if_neg (digit_ne hcd '-' (by decide)), ← List.cons_append, ← hc,
      parseUnsigned_printDecimal m.natAbs e rest hrest]
    simp only [Option.map_some', Option.some.injEq, Prod.mk.injEq,
      JNum.mk.injEq, and_true]
    omega

theorem hexVal_digitChar : ∀ d : Nat, d < 16 → hexVal (Nat.digitChar d) = some d := by
  decide

theorem parseStringBody_cons (c : Char) (rest : List Char) :
    parseStringBody (c :: rest)
      = if c = qChar then some ([], rest)
        else if c = bsChar then
          match rest with
          | [] => none
          | e :: rest₂ =>
            if e = 'u' then
              match rest₂ with
              | h₁ :: h₂ :: h₃ :: h₄ :: rest₃ =>
                match hexVal h₁, hexVal h₂, hexVal h₃, hexVal h₄ with
                | some a, some b, some x, some y =>
                  (parseStringBody rest₃).map
                    (fun p =>
                      (Char.ofNat (((a * 16 + b) * 16 + x) * 16 + y) :: p.1,
                        p.2))
                | _, _, _, _ => none
              | _ => none
            else
              (unescapeChar e).bind fun ch =>
                (parseStringBody rest₂).map (fun p => (ch :: p.1, p.2))
        else (parseStringBody rest).map (fun p => (c :: p.1, p.2)) := by
  rw [parseStringBody.eq_def]

theorem parseStringBody_esc_short (e ch : Char) (he : unescapeChar e = some ch)
    (hu : e ≠ 'u') (tail : List Char) :
    parseStringBody (bsChar :: e :: tail)
      = (parseStringBody tail).map (fun p => (ch :: p.1, p.2)) := by
  rw [parseStringBody_cons, if_neg (show ¬bsChar = qChar from by decide),
    if_pos rfl]
  simp only
  rw [if_neg hu, he]
  rfl

theorem parseStringBody_plain {c : Char} (h1 : c ≠ qChar) (h2 : c ≠ bsChar)
    (tail : List Char) :
    parseStringBody (c :: tail)
      = (parseStringBody tail).map (fun p => (c :: p.1, p.2)) := by
  rw [parseStringBody_cons, if_neg h1, if_neg h2]

theorem parseStringBody_u (t : Nat) (h : t < 32) (tail : List Char) :
    parseStringBody (bsChar :: 'u' :: '0' :: '0' ::
        Nat.digitChar (t / 16) :: Nat.digitChar (t % 16) :: tail)
      = (parseStringBody tail).map (fun p => (Char.ofNat t :: p.1, p.2)) := by
  rw [parseStringBody_cons, if_neg (show ¬bsChar = qChar from by decide),
    if_pos rfl]
  simp only [reduceIte]
  rw [show hexVal '0' = some 0 from by decide,
    hexVal_digitChar (t / 16) (by omega), hexVal_digitChar (t % 16) (by omega)]
  simp only
  rw [show ((0 * 16 + 0) * 16 + t / 16) * 16 + t % 16 = t from by omega]

theorem parseStringBody_escaped (cs : List Char) (rest : List Char) :
    parseStringBody ((cs.map escapeChar).flatten ++ qChar :: rest)
      = some (cs, rest) := by
  induction cs with
  | nil =>
    rw [List.map_nil, List.flatten_nil, List.nil_append, parseStringBody_cons,
      if_pos rfl]
  | cons c cs ih =>
    simp only [List.map_cons, List.flatten_cons, List.append_assoc]
    by_cases h1 : c = qChar
    · subst h1
      rw [show escapeChar qChar = [bsChar, qChar] from rfl]
      simp only [List.cons_append, List.nil_append]
      rw [parseStringBody_esc_short qChar qChar (by decide) (by decide), ih]
      rfl
    · by_cases h2 : c = bsChar
      · subst h2
        rw [show escapeChar bsChar = [bsChar, bsChar] from rfl]
        simp only [List.cons_append, List.nil_append]
        rw [parseStringBody_esc_short bsChar bsChar (by decide) (by decide), ih]
        rfl
      · by_cases h3 : c = '\n'
        · subst h3
          rw [show escapeChar '\n' = [bsChar, 'n'] from rfl]
          simp only [List.cons_append, List.nil_append]
          rw [parseStringBody_esc_short 'n' '\n' (by decide) (by decide), ih]
          rfl
        · by_cases h4 : c = '\t'
          · subst h4
            rw [show escapeChar '\t' = [bsChar, 't'] from rfl]
            simp only [List.cons_append, List.nil_append]
            rw [parseStringBody_esc_short 't' '\t' (by decide) (by decide), ih]
            rfl
          · by_cases h5 : c = '\r'
            · subst h5
              rw [show escapeChar '\r' = [bsChar, 'r'] from rfl]
              simp only [List.cons_append, List.nil_append]
              rw [parseStringBody_esc_short 'r' '\r' (by decide) (by decide), ih]
              rfl
            · by_cases h6 : c.toNat = 8
              · have hc : c = Char.ofNat 8 := by
                  rw [← Char.ofNat_toNat c, h6]
                subst hc
                rw [show escapeChar (Char.ofNat 8) = [bsChar, 'b'] from rfl]
                simp only [List.cons_append, List.nil_append]
                rw [parseStringBody_esc_short 'b' (Char.ofNat 8) (by decide) (by decide), ih]
                rfl
              · by_cases h7 : c.toNat = 12
                · have hc : c = Char.ofNat 12 := by
                    rw [← Char.ofNat_toNat c, h7]
                  subst hc
                  rw [show escapeChar (Char.ofNat 12) = [bsChar, 'f'] from rfl]
                  simp only [List.cons_append, List.nil_append]
                  rw [parseStringBody_esc_short 'f' (Char.ofNat 12) (by decide) (by decide), ih]
                  rfl
                · by_cases h8 : c.toNat < 32
                  · rw [escapeChar, if_neg h1, if_neg h2, if_neg h3, if_neg h4,
                      if_neg h5, if_neg h6, if_neg h7, if_pos h8]
                    simp only [List.cons_append, List.nil_append]
                    rw [parseStringBody_u c.toNat h8, ih]
                    simp [Char.ofNat_toNat]
                  · rw [escapeChar, if_neg h1, if_neg h2, if_neg h3, if_neg h4,
                      if_neg h5, if_neg h6, if_neg h7, if_neg h8]
                    simp only [List.cons_append, List.nil_append]
                    rw [parseStringBody_plain h1 h2, ih]
                    rfl

theorem printJNum_head (n : JNum) :
    ∃ c cs, printJNum n = c :: cs ∧ (c = '-' ∨ c.isDigit = true) := by
  rw [printJNum]
  by_cases hm : n.m < 0
  · simp only [hm, if_true, reduceIte]
    exact ⟨'-', _, rfl, Or.inl rfl⟩
  · simp only [hm, if_false]
    obtain ⟨c, cs, hc, hcd⟩ := printDecimal_head n.m.natAbs n.e
    exact ⟨c, cs, hc, Or.inr hcd⟩

theorem printVal_head (lvl : Nat) (v : Json) :
    ∃ c cs, printVal lvl v = c :: cs ∧ isWsChar c = false ∧ c ≠ ']' := by
  cases v with
  | null =>
    exact ⟨'n', ['u', 'l', 'l'], by rw [printVal, litNull], by decide,
      by decide⟩
  | bool b =>
    cases b with
    | false =>
      exact ⟨'f', ['a', 'l', 's', 'e'], by rw [printVal, litFalse], by decide,
        by decide⟩
    | true =>
      exact ⟨'t', ['r', 'u', 'e'], by rw [printVal, litTrue], by decide,
        by decide⟩
  | num n =>
    obtain ⟨c, cs, hc, hcd⟩ := printJNum_head n
    refine ⟨c, cs, by rw [printVal]; exact hc, ?_, ?_⟩
    · rcases hcd with rfl | h
      · decide
      · exact digit_not_ws h
    · rcases hcd with rfl | h
      · decide
      · exact digit_ne h ']' (by decide)
  | str s =>
    exact ⟨qChar, (s.data.map escapeChar).flatten ++ [qChar],
      by rw [printVal, printQuoted]; simp, by decide, by decide⟩
  | arr xs =>
    cases xs with
    | nil => exact ⟨'[', _, by rw [printVal], by decide, by decide⟩
    | cons x xs => exact ⟨'[', _, by rw [printVal], by decide, by decide⟩
  | obj fs =>
    rcases fs with _ | ⟨⟨k, w⟩, gs⟩
    · exact ⟨lbChar, _, by rw [printVal], by decide, by decide⟩
    · exact ⟨lbChar, _, by rw [printVal], by decide, by decide⟩

theorem printItems_eq (lvl : Nat) (x : Json) (xs : List Json) :
    printItems lvl x xs = printVal lvl x ++
      (match xs with
       | [] => []
       | y :: ys => ',' :: '\n' :: ind lvl ++ printItems lvl y ys) := by
  cases xs with
  | nil => rw [printItems]; simp
  | cons y ys => rw [printItems]; simp

theorem printMembers_eq (lvl : Nat) (k : String) (w : Json)
    (fs : List (String × Json)) :
    printMembers lvl k w fs
      = printQuoted k.data ++ ':' :: ' ' :: printVal lvl w ++
        (match fs with
         | [] => []
         | (k₂, w₂) :: gs => ',' :: '\n' :: ind lvl ++ printMembers lvl k₂ w₂ gs) := by
  rcases fs with _ | ⟨⟨k₂, w₂⟩, gs⟩
  · rw [printMembers]; simp
  · rw [printMembers]; simp

theorem printItems_head (lvl : Nat) (x : Json) (xs : List Json) :
    ∃ c cs, printItems lvl x xs = c :: cs ∧ isWsChar c = false ∧ c ≠ ']' := by
  obtain ⟨c, cs', hc, h1, h2⟩ := printVal_head lvl x
  rw [printItems_eq, hc]
  exact ⟨c, _, by rw [List.cons_append], h1, h2⟩

theorem jsonFuel_pos (v : Json) : 1 ≤ jsonFuel v := by
  cases v with
  | null => rw [jsonFuel]
  | bool b => rw [jsonFuel]
  | num n => rw [jsonFuel]
  | str s => rw [jsonFuel]
  | arr xs => rw [jsonFuel]; omega
  | obj fs => rw [jsonFuel]; omega

theorem skipWs_newline_ind (lvl : Nat) (l : List Char) :
    skipWs ('\n' :: (ind lvl ++ l)) = skipWs l := by
  rw [skipWs, if_pos (show isWsChar '\n' = true from rfl),
    skipWs_append_ws (allWs_ind lvl)]

theorem printMembers_shape (lvl : Nat) (k : String) (w : Json)
    (fs : List (String × Json)) :
    printMembers lvl k w fs
      = qChar :: ((k.data.map escapeChar).flatten
          ++ (qChar :: (':' :: (' ' :: (printVal lvl w
          ++ (match fs with
              | [] => []
              | (k₂, w₂) :: gs =>
                ',' :: ('\n' :: (ind lvl ++ printMembers lvl k₂ w₂ gs)))))))) := by
  rcases fs with _ | ⟨⟨k₂, w₂⟩, gs⟩ <;> rw [printMembers, printQuoted] <;> simp

theorem parse_print (fuel : Nat) :
    (∀ (v : Json) (lvl : Nat) (ws rest : List Char),
        (∀ c ∈ ws, isWsChar c = true) → jsonFuel v ≤ fuel → numSafe rest →
        parseVal fuel (ws ++ (printVal lvl v ++ rest)) = some (v, rest))
    ∧ (∀ (x : Json) (xs : List Json) (lvl lvl₂ : Nat) (ws rest : List Char),
        (∀ c ∈ ws, isWsChar c = true) → itemsFuel (x :: xs) ≤ fuel →
        parseItems fuel
            (ws ++ (printItems lvl x xs ++ ('\n' :: (ind lvl₂ ++ (']' :: rest)))))
          = some (x :: xs, rest))
    ∧ (∀ (k : String) (w : Json) (fs : List (String × Json)) (lvl lvl₂ : Nat)
          (ws rest : List Char),
        (∀ c ∈ ws, isWsChar c = true) → membersFuel ((k, w) :: fs) ≤ fuel →
        parseMembers fuel
            (ws ++ (printMembers lvl k w fs
              ++ ('\n' :: (ind lvl₂ ++ (rbChar :: rest)))))
          = some ((k, w) :: fs, rest)) := by
  induction fuel with
  | zero =>
    refine ⟨?_, ?_, ?_⟩
    · intro v lvl ws rest hws hfuel hsafe
      have := jsonFuel_pos v
      omega
    · intro x xs lvl lvl₂ ws rest hws hfuel
      rw [itemsFuel] at hfuel
      omega
    · intro k w fs lvl lvl₂ ws rest hws hfuel
      rw [membersFuel] at hfuel
      omega
  | succ f ih =>
    obtain ⟨ihV, ihI, ihM⟩ := ih
    refine ⟨?_, ?_, ?_⟩
    · intro v lvl ws rest hws hfuel hsafe
      cases v with
      | null =>
        rw [parseVal, skipWs_append_ws hws, printVal]
        rw [show litNull ++ rest
            = 'n' :: ('u' :: ('l' :: ('l' :: rest))) from rfl]
        rw [skipWs_cons_neg (by decide)]
        simp
      | bool b =>
        cases b with
        | false =>
          rw [parseVal, skipWs_append_ws hws, printVal]
          rw [show litFalse ++ rest
              = 'f' :: ('a' :: ('l' :: ('s' :: ('e' :: rest)))) from rfl]
          rw [skipWs_cons_neg (by decide)]
          simp
        | true =>
          rw [parseVal, skipWs_append_ws hws, printVal]
          rw [show litTrue ++ rest
              = 't' :: ('r' :: ('u' :: ('e' :: rest))) from rfl]
          rw [skipWs_cons_neg (by decide)]
          simp
      | num n =>
        obtain ⟨c₀, cs, hc, hcd⟩ := printJNum_head n
        have hnws : isWsChar c₀ = false := by
          rcases hcd with rfl | h
          · decide
          · exact digit_not_ws h
        have hn : c₀ ≠ 'n' := by
          rcases hcd with rfl | h
          · decide
          · exact digit_ne h 'n' (by decide)
        have ht : c₀ ≠ 't' := by
          rcases hcd with rfl | h
          · decide
          · exact digit_ne h 't' (by decide)
        have hf2 : c₀ ≠ 'f' := by
          rcases hcd with rfl | h
          · decide
          · exact digit_ne h 'f' (by decide)
        have hq : c₀ ≠ qChar := by
          rcases hcd with rfl | h
          · decide
          · exact digit_ne h qChar (by decide)
        have hlb : c₀ ≠ '[' := by
          rcases hcd with rfl | h
          · decide
          · exact digit_ne h '[' (by decide)
        have hlbr : c₀ ≠ lbChar := by
          rcases hcd with rfl | h
          · decide
          · exact digit_ne h lbChar (by decide)
        have hnum : (decide (c₀ = '-') || c₀.isDigit) = true := by
          rcases hcd with rfl | h
          · simp
          · simp [h]
        rw [parseVal, skipWs_append_ws hws, printVal, hc, List.cons_append,
          skipWs_cons_neg hnws]
        simp only [if_neg hn, if_neg ht, if_neg hf2, if_neg hq, if_neg hlb,
          if_neg hlbr, hnum, if_true, reduceIte]
        rw [← List.cons_append, ← hc, parseNumber_printJNum n rest hsafe]
        rfl
      | str s =>
        rw [parseVal, skipWs_append_ws hws, printVal, printQuoted]
        rw [show (qChar :: (s.data.map escapeChar).flatten ++ [qChar]) ++ rest
            = qChar :: ((s.data.map escapeChar).flatten ++ (qChar :: rest))
          from by simp]
        rw [skipWs_cons_neg (by decide)]
        simp only [if_neg (show qChar ≠ 'n' from by decide),
          if_neg (show qChar ≠ 't' from by decide),
          if_neg (show qChar ≠ 'f' from by decide), if_pos rfl, reduceIte]
        rw [parseStringBody_escaped s.data rest]
        rfl
      | arr xs =>
        cases xs with
        | nil =>
          rw [parseVal, skipWs_append_ws hws, printVal]
          rw [show (['[', ']'] : List Char) ++ rest = '[' :: (']' :: rest)
            from rfl]
          rw [skipWs_cons_neg (by decide)]
          simp only [if_neg (show ('[' : Char) ≠ 'n' from by decide),
            if_neg (show ('[' : Char) ≠ 't' from by decide),
            if_neg (show ('[' : Char) ≠ 'f' from by decide),
            if_neg (show ('[' : Char) ≠ qChar from by decide), if_pos rfl,
            reduceIte]
          rw [skipWs_cons_neg (show isWsChar ']' = false from by decide)]
          simp
        | cons x xs =>
          obtain ⟨c₀, cs₀, hc₀, hnws₀, hnbr₀⟩ := printItems_head (lvl + 1) x xs
          rw [jsonFuel] at hfuel
          rw [parseVal, skipWs_append_ws hws, printVal]
          rw [show ('[' :: '\n' :: (ind (lvl + 1) ++ printItems (lvl + 1) x xs
                ++ '\n' :: ind lvl ++ [']'])) ++ rest
              = '[' :: ('\n' :: (ind (lvl + 1) ++ (printItems (lvl + 1) x xs
                ++ ('\n' :: (ind lvl ++ (']' :: rest)))))) from by simp]
          rw [skipWs_cons_neg (by decide)]
          simp only [if_neg (show ('[' : Char) ≠ 'n' from by decide),
            if_neg (show ('[' : Char) ≠ 't' from by decide),
            if_neg (show ('[' : Char) ≠ 'f' from by decide),
            if_neg (show ('[' : Char) ≠ qChar from by decide), if_pos rfl,
            reduceIte]
          rw [skipWs_newline_ind, hc₀, List.cons_append, skipWs_cons_neg hnws₀]
          simp only [if_neg hnbr₀]
          rw [← List.cons_append, ← hc₀]
          have hres := ihI x xs (lvl + 1) lvl [] rest
            (by intro c hcm; cases hcm) (by omega)
          rw [List.nil_append] at hres
          rw [hres]
          rfl
      | obj fs =>
        rcases fs with _ | ⟨⟨k, w⟩, gs⟩
        · rw [parseVal, skipWs_append_ws hws, printVal]
          rw [show ([lbChar, rbChar] : List Char) ++ rest
              = lbChar :: (rbChar :: rest) from rfl]
          rw [skipWs_cons_neg (by decide)]
          simp only [if_neg (show lbChar ≠ 'n' from by decide),
            if_neg (show lbChar ≠ 't' from by decide),
            if_neg (show lbChar ≠ 'f' from by decide),
            if_neg (show lbChar ≠ qChar from by decide),
            if_neg (show lbChar ≠ '[' from by decide), if_pos rfl, reduceIte]
          rw [skipWs_cons_neg (show isWsChar rbChar = false from by decide)]
          simp
        · rw [jsonFuel] at hfuel
          rw [parseVal, skipWs_append_ws hws, printVal]
          rw [show (lbChar :: '\n' :: (ind (lvl + 1)
                ++ printMembers (lvl + 1) k w gs
                ++ '\n' :: ind lvl ++ [rbChar])) ++ rest
              = lbChar :: ('\n' :: (ind (lvl + 1)
                ++ (printMembers (lvl + 1) k w gs
                ++ ('\n' :: (ind lvl ++ (rbChar :: rest)))))) from by simp]
          rw [skipWs_cons_neg (by decide)]
          simp only [if_neg (show lbChar ≠ 'n' from by decide),
            if_neg (show lbChar ≠ 't' from by decide),
            if_neg (show lbChar ≠ 'f' from by decide),
            if_neg (show lbChar ≠ qChar from by decide),
            if_neg (show lbChar ≠ '[' from by decide), if_pos rfl, reduceIte]
          rw [skipWs_newline_ind, printMembers_shape, List.cons_append,
            skipWs_cons_neg (show isWsChar qChar = false from by decide)]
          simp only [if_neg (show qChar ≠ rbChar from by decide)]
          rw [← List.cons_append, ← printMembers_shape]
          have hres := ihM k w gs (lvl + 1) lvl [] rest
            (by intro c hcm; cases hcm) (by omega)
          rw [List.nil_append] at hres
          rw [hres]
          rfl
    · intro x xs lvl lvl₂ ws rest hws hfuel
      rw [itemsFuel] at hfuel
      rw [parseItems, printItems_eq]
      cases xs with
      | nil =>
        rw [show (ws ++ ((printVal lvl x ++ [])
              ++ ('\n' :: (ind lvl₂ ++ (']' :: rest)))))
            = ws ++ (printVal lvl x ++ ('\n' :: (ind lvl₂ ++ (']' :: rest))))
          from by simp]
        rw [ihV x lvl ws ('\n' :: (ind lvl₂ ++ (']' :: rest))) hws (by omega)
          ⟨by decide, by decide⟩]
        simp only [reduceIte]
        rw [skipWs_newline_ind,
          skipWs_cons_neg (show isWsChar ']' = false from by decide)]
        simp
      | cons y ys =>
        rw [show (ws ++ ((printVal lvl x
              ++ (',' :: '\n' :: ind lvl ++ printItems lvl y ys))
              ++ ('\n' :: (ind lvl₂ ++ (']' :: rest)))))
            = ws ++ (printVal lvl x ++ (',' :: ('\n' :: (ind lvl
              ++ (printItems lvl y ys
                ++ ('\n' :: (ind lvl₂ ++ (']' :: rest))))))))
          from by simp]
        rw [ihV x lvl ws (',' :: ('\n' :: (ind lvl
              ++ (printItems lvl y ys
                ++ ('\n' :: (ind lvl₂ ++ (']' :: rest)))))))
          hws (by omega) ⟨by decide, by decide⟩]
        simp only [reduceIte]
        rw [skipWs_cons_neg (show isWsChar ',' = false from by decide)]
        simp only [if_pos rfl, reduceIte]
        rw [show ('\n' :: (ind lvl ++ (printItems lvl y ys
              ++ ('\n' :: (ind lvl₂ ++ (']' :: rest))))))
            = ('\n' :: ind lvl) ++ (printItems lvl y ys
              ++ ('\n' :: (ind lvl₂ ++ (']' :: rest)))) from by simp]
        rw [ihI y ys lvl lvl₂ ('\n' :: ind lvl) rest
          (by
            intro c hcm
            rcases List.mem_cons.mp hcm with rfl | hcm
            · decide
            · exact allWs_ind lvl c hcm)
          (by omega)]
        rfl
    · intro k w fs lvl lvl₂ ws rest hws hfuel
      rw [membersFuel] at hfuel
      cases fs with
      | nil =>
        rw [parseMembers, printMembers_shape, skipWs_append_ws hws,
          List.cons_append,
          skipWs_cons_neg (show isWsChar qChar = false from by decide)]
        simp only [if_pos rfl, reduceIte]
        rw [show ((k.data.map escapeChar).flatten
              ++ (qChar :: (':' :: (' ' :: (printVal lvl w ++ ([] : List Char)))))
              ++ ('\n' :: (ind lvl₂ ++ (rbChar :: rest))))
            = (k.data.map escapeChar).flatten
              ++ (qChar :: (':' :: (' ' :: (printVal lvl w
                ++ ('\n' :: (ind lvl₂ ++ (rbChar :: rest)))))))
          from by simp]
        rw [parseStringBody_escaped k.data]
        simp only [reduceIte]
        rw [skipWs_cons_neg (show isWsChar ':' = false from by decide)]
        simp only [if_pos rfl, reduceIte]
        rw [show (' ' :: (printVal lvl w
              ++ ('\n' :: (ind lvl₂ ++ (rbChar :: rest)))))
            = [' '] ++ (printVal lvl w
              ++ ('\n' :: (ind lvl₂ ++ (rbChar :: rest)))) from rfl]
        rw [ihV w lvl [' ']
          ('\n' :: (ind lvl₂ ++ (rbChar :: rest)))
          (by
            intro c hcm
            rcases List.mem_cons.mp hcm with rfl | hcm
            · decide
            · cases hcm)
          (by omega) ⟨by decide, by decide⟩]
        simp only [reduceIte]
        rw [skipWs_newline_ind,
          skipWs_cons_neg (show isWsChar rbChar = false from by decide)]
        simp only [if_neg (show rbChar ≠ ',' from by decide), if_pos rfl,
          reduceIte]
      | cons g gs =>
        obtain ⟨k₂, w₂⟩ := g
        rw [parseMembers, printMembers_shape, skipWs_append_ws hws,
          List.cons_append,
          skipWs_cons_neg (show isWsChar qChar = false from by decide)]
        simp only [if_pos rfl, reduceIte]
        rw [show ((k.data.map escapeChar).flatten
              ++ (qChar :: (':' :: (' ' :: (printVal lvl w
                ++ (',' :: ('\n' :: (ind lvl ++ printMembers lvl k₂ w₂ gs)))))))
              ++ ('\n' :: (ind lvl₂ ++ (rbChar :: rest))))
            = (k.data.map escapeChar).flatten
              ++ (qChar :: (':' :: (' ' :: (printVal lvl w
                ++ (',' :: ('\n' :: (ind lvl
                  ++ (printMembers lvl k₂ w₂ gs
                    ++ ('\n' :: (ind lvl₂ ++ (rbChar :: rest)))))))))))
          from by simp]
        rw [parseStringBody_escaped k.data]
        simp only [reduceIte]
        rw [skipWs_cons_neg (show isWsChar ':' = false from by decide)]
        simp only [if_pos rfl, reduceIte]
        rw [show (' ' :: (printVal lvl w
              ++ (',' :: ('\n' :: (ind lvl
                ++ (printMembers lvl k₂ w₂ gs
                  ++ ('\n' :: (ind lvl₂ ++ (rbChar :: rest)))))))))
            = [' '] ++ (printVal lvl w
              ++ (',' :: ('\n' :: (ind lvl
                ++ (printMembers lvl k₂ w₂ gs
                  ++ ('\n' :: (ind lvl₂ ++ (rbChar :: rest))))))))
          from rfl]
        rw [ihV w lvl [' ']
          (',' :: ('\n' :: (ind lvl
            ++ (printMembers lvl k₂ w₂ gs
              ++ ('\n' :: (ind lvl₂ ++ (rbChar :: rest)))))))
          (by
            intro c hcm
            rcases List.mem_cons.mp hcm with rfl | hcm
            · decide
            · cases hcm)
          (by omega) ⟨by decide, by decide⟩]
        simp only [reduceIte]
        rw [skipWs_cons_neg (show isWsChar ',' = false from by decide)]
        simp only [if_pos rfl, reduceIte]
        rw [show ('\n' :: (ind lvl ++ (printMembers lvl k₂ w₂ gs
              ++ ('\n' :: (ind lvl₂ ++ (rbChar :: rest))))))
            = ('\n' :: ind lvl) ++ (printMembers lvl k₂ w₂ gs
              ++ ('\n' :: (ind lvl₂ ++ (rbChar :: rest)))) from by simp]
        rw [ihM k₂ w₂ gs lvl lvl₂ ('\n' :: ind lvl) rest
          (by
            intro c hcm
            rcases List.mem_cons.mp hcm with rfl | hcm
            · decide
            · exact allWs_ind lvl c hcm)
          (by omega)]
        rfl

mutual

theorem jsonFuel_le (v : Json) (lvl : Nat) :
    jsonFuel v ≤ (printVal lvl v).length := by
  cases v with
  | null => rw [jsonFuel, printVal]; simp [litNull]
  | bool b =>
    cases b with
    | false => rw [jsonFuel, printVal]; simp [litFalse]
    | true => rw [jsonFuel, printVal]; simp [litTrue]
  | num n =>
    obtain ⟨c, cs, hc, -⟩ := printJNum_head n
    rw [jsonFuel, printVal, hc]
    simp
  | str s =>
    rw [jsonFuel, printVal, printQuoted]
    simp
  | arr xs =>
    cases xs with
    | nil => rw [jsonFuel, itemsFuel, printVal]; simp
    | cons x xs =>
      have h := itemsFuel_le x xs (lvl + 1)
      rw [jsonFuel, printVal]
      simp only [List.length_cons, List.length_append, ind,
        List.length_replicate]
      omega
  | obj fs =>
    rcases fs with _ | ⟨⟨k, w⟩, gs⟩
    · rw [jsonFuel, membersFuel, printVal]; simp
    · have h := membersFuel_le k w gs (lvl + 1)
      rw [jsonFuel, printVal]
      simp only [List.length_cons, List.length_append, ind,
        List.length_replicate]
      omega
termination_by sizeOf v
decreasing_by all_goals ((try simp); (try omega))

theorem itemsFuel_le (x : Json) (xs : List Json) (lvl : Nat) :
    itemsFuel (x :: xs) ≤ (printItems lvl x xs).length + 2 := by
  cases xs with
  | nil =>
    have h := jsonFuel_le x lvl
    rw [itemsFuel, itemsFuel, printItems]
    omega
  | cons y ys =>
    have h1 := jsonFuel_le x lvl
    have h2 := itemsFuel_le y ys lvl
    rw [itemsFuel, printItems]
    simp only [List.length_cons, List.length_append, ind,
      List.length_replicate]
    omega
termination_by 1 + sizeOf x + sizeOf xs
decreasing_by all_goals ((try simp); (try omega))

theorem membersFuel_le (k : String) (w : Json) (fs : List (String × Json))
    (lvl : Nat) :
    membersFuel ((k, w) :: fs) ≤ (printMembers lvl k w fs).length + 2 := by
  cases fs with
  | nil =>
    have h := jsonFuel_le w lvl
    rw [membersFuel, membersFuel, printMembers]
    simp only [List.length_append, List.length_cons]
    omega
  | cons g gs =>
    obtain ⟨k₂, w₂⟩ := g
    have h1 := jsonFuel_le w lvl
    have h2 := membersFuel_le k₂ w₂ gs lvl
    rw [membersFuel, printMembers]
    simp only [List.length_cons, List.length_append, ind,
      List.length_replicate]
    omega
termination_by 1 + sizeOf w + sizeOf fs
decreasing_by all_goals ((try simp); (try omega))

end

theorem jsonLoads_jsonDumps (v : Json) : jsonLoads (jsonDumps v) = some v := by
  rw [jsonLoads, jsonDumps]
  have h := (parse_print ((printVal 0 v).length + 1)).1 v 0 [] []
    (by intro c hc; cases hc) ((jsonFuel_le v 0).trans (Nat.le_succ _)) trivial
  rw [List.nil_append, List.append_nil] at h
  rw [show (String.mk (printVal 0 v)).data = printVal 0 v from rfl, h]
  simp [skipWs]

/-- C9.  Writing any serializable value with `_save_json`
(`json.dump(..., indent=2, ensure_ascii=False)`) and reading the same
file back with `_load_json` (`json.load`) returns exactly the value
written; in particular the config record written by `_init_files`
round-trips identically. -/
theorem save_load_roundtrip :
    (∀ (fs : DataService.FileStore) (path config_file : String) (v : Json),
      DataService.load_json (DataService.save_json fs path v) path config_file
        = v)
    ∧ DataService.load_json
        (DataService.save_json (fun _ => none) "data/config.json"
          DataService.initialConfig)
        "data/config.json" "data/config.json"
      = DataService.initialConfig := by
  have hmain : ∀ (fs : DataService.FileStore) (path config_file : String)
      (v : Json),
      DataService.load_json (DataService.save_json fs path v) path config_file
        = v := by
    intro fs path config_file v
    rw [DataService.load_json, DataService.save_json]
    simp [jsonLoads_jsonDumps]
  exact ⟨hmain, hmain _ _ _ _⟩
